import Mathlib

/-! # ll1: worker pool, shared queue and double-dispatch events

A shallow embedding of `main.cpp`.

* Output streams (`cout`, `cerr`) are strings; `endl` is a newline.
* A C++ call that may throw is a function `World R → Outcome × World R`; every
  `catch` of the program is `catch(...)`, so the exception value is not kept.
* `boost::shared_ptr<IRunnable>` is `Option R` (`none` is the null pointer), for a
  type `R` of runnable objects; the pure virtual `IRunnable::Run` is a parameter
  `Run : R → Action R` of the worker loop.
* The mutex of `CSharedQueue` makes each queue operation atomic, so the queue is the
  content of its `std::deque`; what other threads put during the `timed_wait` of
  `GetWaitblock` is an argument of that function.
* `assert` depends on whether the program is compiled with `NDEBUG`; that is
  a parameter of the worker loop.
-/

namespace ll1

/-! ## Events -/

/-- The four concrete subclasses of `IEvent`; `CEventUnhandledException` carries its message. -/
inductive IEvent where
  | CEventUnhandledException (m_exceptionMessage : String)
  | CEventReadCompleted
  | CEvent1
  | CEventSocketError
deriving DecidableEq, Repr

/-- The virtual `GetExplanation` of each event class. -/
def IEvent.GetExplanation : IEvent → String
  | .CEventUnhandledException m_exceptionMessage =>
      "Unexpected exception : " ++ m_exceptionMessage
  | .CEventReadCompleted => "Read success!"
  | .CEvent1 => "event1"
  | .CEventSocketError => "socket error"

/-! ## The shared queue -/

/-- The class `CSharedQueue<T>`: the content of `m_queue`, front first. -/
structure CSharedQueue (T : Type) where
  m_queue : List T
deriving DecidableEq, Repr

namespace CSharedQueue

variable {T : Type}

/-- `Put`: `m_queue.push_back(t)` (and a notification, which has no state). -/
def Put (q : CSharedQueue T) (t : T) : CSharedQueue T :=
  { m_queue := q.m_queue ++ [t] }

/-- `GetNonblock(T & t)`: the returned flag, the value of `t` after the call, the queue
after the call. -/
def GetNonblock (q : CSharedQueue T) (t : T) : Bool × T × CSharedQueue T :=
  match q.m_queue with
  | [] => (false, t, q)
  | front :: rest => (true, front, { m_queue := rest })

/-- `IsEmpty`: `m_queue.empty()`. -/
def IsEmpty (q : CSharedQueue T) : Bool :=
  q.m_queue.isEmpty

/-- The `timed_wait` of `GetWaitblock`: the lock is released, other threads put
`arrived`, and the lock is taken again (a timeout or a spurious wake is `arrived = []`). -/
def timedWait (arrived : List T) (q : CSharedQueue T) : CSharedQueue T :=
  { m_queue := q.m_queue ++ arrived }

/-- `GetWaitblock(T & t)`: waits only when the queue is empty at entry, then takes the
front item if there is one.  Returns the flag, the value of `t` after the call, and the
queue after the call. -/
def GetWaitblock (arrived : List T) (q : CSharedQueue T) (t : T) : Bool × T × CSharedQueue T :=
  let q1 := if q.m_queue.isEmpty then timedWait arrived q else q
  match q1.m_queue with
  | front :: rest => (true, front, { m_queue := rest })
  | [] => (false, t, q1)

/-- The items a dequeue call took from the queue: its output when it returned true. -/
def taken (got : Bool) (t : T) : List T :=
  if got then [t] else []

/-- Calls `Put` on each element of `xs`, in order. -/
def putAll (q : CSharedQueue T) (xs : List T) : CSharedQueue T :=
  xs.foldl Put q

/-- Calls `GetNonblock` `k` times, each time with the output argument holding `t0` at
entry; returns the flags, the values left in the output argument by the calls that
returned true, and the final queue. -/
def getMany : Nat → T → CSharedQueue T → List Bool × List T × CSharedQueue T
  | 0, _, q => ([], [], q)
  | k + 1, t0, q =>
    match GetNonblock q t0 with
    | (true, t, q1) =>
      let r := getMany k t0 q1
      (true :: r.1, t :: r.2.1, r.2.2)
    | (false, _, q1) =>
      let r := getMany k t0 q1
      (false :: r.1, r.2.1, r.2.2)

end CSharedQueue

/-! ## The thread pool object and the process state -/

/-- How a call ends: it returns, or an exception leaves it. -/
inductive Outcome where
  | returned
  | threw
deriving DecidableEq, Repr

/-- The state of a thread of `m_threads`: still inside the `for (;;)` of `ThreadRun`, or
past it (the thread has ended and can be joined). -/
inductive ThreadState where
  | looping
  | down
deriving DecidableEq, Repr

/-- The fields of `CThreadPool`; `PRunnable` is `Option R`. -/
structure CThreadPool (R : Type) where
  m_threadsCnt : Nat
  m_threads : List ThreadState
  m_queue : CSharedQueue (Option R)
  m_cancel : Bool

/-- The state the program works on: the global pool `tp` and the two output streams. -/
structure World (R : Type) where
  tp : CThreadPool R
  cout : String
  cerr : String

/-- A call that changes the state and returns or throws. -/
abbrev Action (R : Type) := World R → Outcome × World R

/-- The stream manipulator `endl`. -/
def endl : String := "\n"

/-- Writes `s` to `cout`. -/
def World.toCout {R : Type} (w : World R) (s : String) : World R :=
  { w with cout := w.cout ++ s }

/-- Writes `s` to `cerr`. -/
def World.toCerr {R : Type} (w : World R) (s : String) : World R :=
  { w with cerr := w.cerr ++ s }

/-! ## Event handlers: the class hierarchy and its virtual calls -/

/-- The handler classes of the program; a handler object has no fields, so it is its
dynamic class. -/
inductive HandlerClass where
  | IEventHandler
  | CEventHandlerNull
  | CEventHandlerReadTask
  | CEventHandlerSomthing
deriving DecidableEq, Repr

section Handlers

variable {R : Type}

/-- The body of `IEventHandler::UnexpectedEvent`. -/
def IEventHandler.UnexpectedEvent (event : IEvent) : Action R := fun w =>
  (.returned, ((w.toCout "Unexpected Event!").toCout event.GetExplanation).toCout endl)

/-- The body of `CEventHandlerNull::UnexpectedEvent`: do nothing. -/
def CEventHandlerNull.UnexpectedEvent (_event : IEvent) : Action R := fun w =>
  (.returned, w)

/-- The virtual call `this->UnexpectedEvent(event)`: only `CEventHandlerNull` overrides. -/
def HandlerClass.UnexpectedEvent (self : HandlerClass) (event : IEvent) : Action R :=
  match self with
  | .CEventHandlerNull => CEventHandlerNull.UnexpectedEvent event
  | _ => IEventHandler.UnexpectedEvent event

/-- The body of the non-virtual `IEventHandler::DefaultHandlerUnhandledException`; the
argument is the event's `GetExceptionMessage()`. -/
def IEventHandler.DefaultHandlerUnhandledException (exceptionMessage : String) : Action R :=
  fun w =>
  (.returned, ((w.toCout "UNHANDLED exception : ").toCout exceptionMessage).toCout endl)

/-- The body of `IEventHandler::HandleEvent(const CEventUnhandledException &)`. -/
def IEventHandler.HandleEvent_CEventUnhandledException (exceptionMessage : String) :
    Action R :=
  IEventHandler.DefaultHandlerUnhandledException exceptionMessage

/-- The body of `IEventHandler::HandleEvent(const CEventReadCompleted &)`. -/
def IEventHandler.HandleEvent_CEventReadCompleted (self : HandlerClass) : Action R :=
  self.UnexpectedEvent .CEventReadCompleted

/-- The body of `IEventHandler::HandleEvent(const CEventSocketError &)`. -/
def IEventHandler.HandleEvent_CEventSocketError (self : HandlerClass) : Action R :=
  self.UnexpectedEvent .CEventSocketError

/-- The body of `IEventHandler::HandleEvent(const CEvent1 &)`. -/
def IEventHandler.HandleEvent_CEvent1 (self : HandlerClass) : Action R :=
  self.UnexpectedEvent .CEvent1

/-- The body of `CEventHandlerReadTask::HandleEvent(const CEventReadCompleted &)`. -/
def CEventHandlerReadTask.HandleEvent_CEventReadCompleted : Action R := fun w =>
  (.returned, (w.toCout IEvent.CEventReadCompleted.GetExplanation).toCout endl)

/-- The body of `CEventHandlerReadTask::HandleEvent(const CEventSocketError &)`. -/
def CEventHandlerReadTask.HandleEvent_CEventSocketError : Action R := fun w =>
  (.returned, (w.toCout IEvent.CEventSocketError.GetExplanation).toCout endl)

/-- The virtual call `HandleEvent(const CEventUnhandledException &)`: no class overrides. -/
def HandlerClass.HandleEvent_CEventUnhandledException (_self : HandlerClass)
    (exceptionMessage : String) : Action R :=
  IEventHandler.HandleEvent_CEventUnhandledException exceptionMessage

/-- The virtual call `HandleEvent(const CEventReadCompleted &)`. -/
def HandlerClass.HandleEvent_CEventReadCompleted (self : HandlerClass) : Action R :=
  match self with
  | .CEventHandlerReadTask => CEventHandlerReadTask.HandleEvent_CEventReadCompleted
  | _ => IEventHandler.HandleEvent_CEventReadCompleted self

/-- The virtual call `HandleEvent(const CEventSocketError &)`. -/
def HandlerClass.HandleEvent_CEventSocketError (self : HandlerClass) : Action R :=
  match self with
  | .CEventHandlerReadTask => CEventHandlerReadTask.HandleEvent_CEventSocketError
  | _ => IEventHandler.HandleEvent_CEventSocketError self

/-- The virtual call `HandleEvent(const CEvent1 &)`: no class overrides. -/
def HandlerClass.HandleEvent_CEvent1 (self : HandlerClass) : Action R :=
  IEventHandler.HandleEvent_CEvent1 self

/-- The virtual `PostToHandler` of each event class (`EVENT_POST_TO_HANDLER_IMPL`):
`eventHandler->HandleEvent(*this)`, the overload chosen by the static type of `*this`. -/
def IEvent.PostToHandler (event : IEvent) (eventHandler : HandlerClass) : Action R :=
  match event with
  | .CEventUnhandledException m => eventHandler.HandleEvent_CEventUnhandledException m
  | .CEventReadCompleted => eventHandler.HandleEvent_CEventReadCompleted
  | .CEventSocketError => eventHandler.HandleEvent_CEventSocketError
  | .CEvent1 => eventHandler.HandleEvent_CEvent1

/-- The non-virtual `IEventHandler::HandleEvent(const PEvent &)`. -/
def HandlerClass.HandleEvent (self : HandlerClass) (event : IEvent) : Action R :=
  event.PostToHandler self

/-- `CEventHandlerTaskWrapper::HandleYield`. -/
def CEventHandlerTaskWrapper.HandleYield (handler : HandlerClass) (event : IEvent) :
    Action R :=
  handler.HandleEvent event

end Handlers

/-! ## Tasks -/

/-- `CTask::Run` of a task constructed with `m_eventHandler`, whose pure virtual
`RunTask` is the given action. -/
def CTask.Run {R : Type} (m_eventHandler : HandlerClass) (RunTask : Action R) : Action R :=
  fun w =>
  match RunTask (w.toCerr ("TASK RUN" ++ endl)) with
  | (.returned, w1) => (.returned, w1.toCerr ("TASK STOP" ++ endl))
  | (.threw, w1) =>
    CEventHandlerTaskWrapper.HandleYield m_eventHandler
      (.CEventUnhandledException "unknown exception") (w1.toCerr ("TASK STOP" ++ endl))

/-! ## The pool operations -/

namespace CThreadPool

variable {R : Type}

/-- The constructor `CThreadPool(threadsCnt)`. -/
def new (threadsCnt : Nat) : CThreadPool R :=
  { m_threadsCnt := threadsCnt, m_threads := [], m_queue := { m_queue := [] },
    m_cancel := false }

/-- One turn of the loop of `Run`: a thread is created and starts `ThreadRun`, which
first writes "thread up". -/
def Run.loop : Nat → World R → World R
  | 0, w => w
  | k + 1, w =>
    Run.loop k
      ({ w with tp := { w.tp with m_threads := w.tp.m_threads ++ [ThreadState.looping] } }.toCerr
        ("thread up" ++ endl))

/-- `Run`: spawns `m_threadsCnt` threads. -/
def Run (w : World R) : World R :=
  Run.loop w.tp.m_threadsCnt w

/-- `Cancel`. -/
def Cancel (w : World R) : World R :=
  { w with tp := { w.tp with m_cancel := true } }

/-- `PostRunnable`. -/
def PostRunnable (runnable : Option R) (w : World R) : World R :=
  let w1 := w.toCerr ("PR" ++ endl)
  { w1 with tp := { w1.tp with m_queue := w1.tp.m_queue.Put runnable } }

/-- The loop of `BroadcastFastCancell`, with the number of turns left. -/
def BroadcastFastCancell.loop : Nat → World R → World R
  | 0, w => w
  | k + 1, w =>
    BroadcastFastCancell.loop k
      ({ w with tp := { w.tp with m_queue := w.tp.m_queue.Put none } }.toCerr
        ("cancel broad" ++ endl))

/-- `BroadcastFastCancell`: one null runnable per configured thread. -/
def BroadcastFastCancell (w : World R) : World R :=
  BroadcastFastCancell.loop w.tp.m_threadsCnt w

/-- What `Join` waits for: every thread of `m_threads` has ended. -/
def Join.returns (w : World R) : Bool :=
  w.tp.m_threads.all (fun t => t == ThreadState.down)

/-- How one turn of the `for (;;)` of `ThreadRun` ends: the loop goes round again, the
`break` is taken, or `assert(false)` aborts the process. -/
inductive Ctl where
  | again
  | leave
  | abort
deriving DecidableEq, Repr

/-- What one turn of the loop leaves behind: how it ended, what `GetWaitblock`
returned, the local `p`, and the state. -/
structure Turn (R : Type) where
  ctl : Ctl
  got : Bool
  p : Option R
  world : World R

/-- One turn of the `for (;;)` of `ThreadRun`.  `NDEBUG` tells whether `assert` is
compiled out, `Run` is the virtual `IRunnable::Run`, `arrived` is what other threads put
while this turn waited on an empty queue. -/
def ThreadRun.turn (NDEBUG : Bool) (Run : R → Action R) (arrived : List (Option R))
    (w : World R) : Turn R :=
  match w.tp.m_queue.GetWaitblock arrived none with
  | (true, some r, q1) =>
    match Run r { w with tp := { w.tp with m_queue := q1 } } with
    | (.returned, w1) => { ctl := .again, got := true, p := some r, world := w1 }
    | (.threw, w1) =>
      let w2 := w1.toCerr "unexpected exception in thread pool!"
      { ctl := if NDEBUG then .again else .abort, got := true, p := some r, world := w2 }
  | (true, none, q1) =>
    let w1 : World R := { w with tp := { w.tp with m_queue := q1 } }
    if w1.tp.m_cancel && w1.tp.m_queue.IsEmpty then
      { ctl := .leave, got := true, p := none, world := w1.toCerr ("TD" ++ endl) }
    else
      { ctl := .again, got := true, p := none, world := w1 }
  | (false, p, q1) =>
    { ctl := .again, got := false, p := p, world := { w with tp := { w.tp with m_queue := q1 } } }

end CThreadPool

/-! ## The process: threads taking turns -/

/-- The running process: the state, and whether `assert(false)` has aborted it. -/
structure Process (R : Type) where
  world : World R
  aborted : Bool

/-- What the scheduler lets happen next: thread `i` of the pool takes one turn of its
loop (during which other threads put `arrived` if the turn waits), or another thread,
such as the main thread, calls `PostRunnable`, `Cancel` or `BroadcastFastCancell`. -/
inductive Move (R : Type) where
  | turn (i : Nat) (arrived : List (Option R))
  | post (runnable : Option R)
  | cancel
  | broadcast

/-- What a move showed: the worker thread if it was a turn, what `GetWaitblock` returned,
the pointer it took, and the entries the queue gained during the move (put by other
threads, or by the runnable that ran). -/
structure Obs (R : Type) where
  thread : Option Nat
  got : Bool
  p : Option R
  added : List (Option R)

section Exec

variable {R : Type}

/-- Thread `i` is given one turn of its loop.  Nothing happens when thread `i` is not
in its loop.  A thread that takes the `break` writes "thread down" and ends; an
`assert(false)` aborts the process. -/
def workerTurn (NDEBUG : Bool) (Run : R → Action R) (i : Nat) (arrived : List (Option R))
    (s : Process R) : Process R × Option (Obs R) :=
  match s.world.tp.m_threads.get? i with
  | some ThreadState.looping =>
    let t := CThreadPool.ThreadRun.turn NDEBUG Run arrived s.world
    let o : Obs R :=
      { thread := some i, got := t.got, p := t.p,
        added := (CSharedQueue.taken t.got t.p ++ t.world.tp.m_queue.m_queue).drop
          s.world.tp.m_queue.m_queue.length }
    match t.ctl with
    | .again => ({ world := t.world, aborted := false }, some o)
    | .leave =>
      ({ world :=
          { t.world with
            tp := { t.world.tp with
              m_threads := t.world.tp.m_threads.set i ThreadState.down } }.toCerr
            ("thread down" ++ endl),
         aborted := false }, some o)
    | .abort => ({ world := t.world, aborted := true }, some o)
  | _ => (s, none)

/-- One move of the process; an aborted process makes no move. -/
def step (NDEBUG : Bool) (Run : R → Action R) (m : Move R) (s : Process R) :
    Process R × Option (Obs R) :=
  if s.aborted then (s, none) else
  match m with
  | .turn i arrived => workerTurn NDEBUG Run i arrived s
  | .post runnable =>
    ({ world := CThreadPool.PostRunnable runnable s.world, aborted := false },
      some { thread := none, got := false, p := none, added := [runnable] })
  | .cancel => ({ world := CThreadPool.Cancel s.world, aborted := false }, none)
  | .broadcast =>
    ({ world := CThreadPool.BroadcastFastCancell s.world, aborted := false },
      some { thread := none, got := false, p := none,
             added := List.replicate s.world.tp.m_threadsCnt none })

/-- An execution: the moves of a schedule, one after the other; returns the final
process and what the moves showed. -/
def exec (NDEBUG : Bool) (Run : R → Action R) :
    List (Move R) → Process R → Process R × List (Obs R)
  | [], s => (s, [])
  | m :: rest, s =>
    match step NDEBUG Run m s with
    | (s1, none) => exec NDEBUG Run rest s1
    | (s1, some o) =>
      let r := exec NDEBUG Run rest s1
      (r.1, o :: r.2)

/-- A schedule of worker turns only, during which nothing is posted. -/
def quiet (is : List Nat) : List (Move R) :=
  is.map (fun i => Move.turn i [])

/-- A move that puts no null pointer on the queue and leaves the cancel flag alone: a
turn during which only non-null runnables arrive, or a `PostRunnable` of a non-null
runnable. -/
def Move.work : Move R → Bool
  | .turn _ arrived => arrived.all Option.isSome
  | .post runnable => runnable.isSome
  | .cancel => false
  | .broadcast => false

/-- The runnable interacts with the pool only by posting: whatever the state, its `Run`
leaves the queue as it was, followed by non-null runnables. -/
def PostsOnly (Run : R → Action R) : Prop :=
  ∀ r w, ∃ ps : List R,
    (Run r w).2.tp.m_queue.m_queue = w.tp.m_queue.m_queue ++ ps.map some

/-- The queue entries taken in an execution, in order. -/
def dequeued (log : List (Obs R)) : List (Option R) :=
  log.flatMap (fun o => CSharedQueue.taken o.got o.p)

/-- The runnables whose `Run` was invoked in an execution, in order: `Run` is invoked
exactly on the non-null pointers taken. -/
def ran (log : List (Obs R)) : List R :=
  (dequeued log).filterMap id

/-- The queue entries added in an execution, in order. -/
def added (log : List (Obs R)) : List (Option R) :=
  log.flatMap (fun o => o.added)

/-- The number of threads that have left their loop. -/
def downCount (w : World R) : Nat :=
  w.tp.m_threads.count ThreadState.down

/-- A pool constructed with thread count `n`, on which `Run` was called; nothing has
been written yet. -/
def started (n : Nat) : World R :=
  CThreadPool.Run { tp := CThreadPool.new n, cout := "", cerr := "" }

/-- A pool of `n` threads, started, on which the non-null runnables `xs` were posted. -/
def posted (n : Nat) (xs : List R) : World R :=
  xs.foldl (fun w r => CThreadPool.PostRunnable (some r) w) (started n)

/-- A pool of `n` threads, started, then `Cancel` and `BroadcastFastCancell`. -/
def shutdown (n : Nat) : World R :=
  CThreadPool.BroadcastFastCancell (CThreadPool.Cancel (started n))

end Exec

/-- The runnable does not touch the threads of the pool. -/
def ThreadsUntouched {R : Type} (Run : R → Action R) : Prop :=
  ∀ r w, (Run r w).2.tp.m_threads = w.tp.m_threads

/-- The state of a pool of `len` threads from which at most one thread has left, and
then only with the queue empty. -/
def AtMostOneLeft {R : Type} (len : Nat) (s : Process R) : Prop :=
  s.world.tp.m_threads.length = len
  ∧ (downCount s.world = 0
    ∨ (downCount s.world = 1 ∧ s.world.tp.m_queue.m_queue = []))

/-- The state of a pool that holds only sentinels and from which at most one thread has
left, and then only with the queue empty. -/
def OnlySentinels {R : Type} (len : Nat) (s : Process R) : Prop :=
  s.aborted = false
  ∧ s.world.tp.m_threads.length = len
  ∧ ∃ k, s.world.tp.m_queue.m_queue = List.replicate k none
    ∧ (downCount s.world = 0 ∨ (downCount s.world = 1 ∧ k = 0))

/-! ## The runnables of the program -/

/-- The concrete classes under `IRunnable`: `CTaskDummy` (constructed with the handler
of its `CTask` base) and `CTaskHandleEvent` (whose `CTask` base always gets a new
`CEventHandlerNull`). -/
inductive Runnable where
  | CTaskDummy (m_eventHandler : HandlerClass)
  | CTaskHandleEvent (m_handler : HandlerClass) (m_event : IEvent)
deriving DecidableEq, Repr

/-- `CEventHandlerTaskWrapper::HandleDetached`; the pool is the global `tp`. -/
def CEventHandlerTaskWrapper.HandleDetached (handler : HandlerClass) (event : IEvent) :
    Action Runnable := fun w =>
  (.returned, CThreadPool.PostRunnable (some (Runnable.CTaskHandleEvent handler event)) w)

/-- `CTaskHandleEvent::RunTask`. -/
def CTaskHandleEvent.RunTask (m_handler : HandlerClass) (m_event : IEvent) :
    Action Runnable :=
  m_handler.HandleEvent m_event

/-- `CTaskDummy::RunTask`. -/
def CTaskDummy.RunTask (m_eventHandler : HandlerClass) : Action Runnable := fun w =>
  CEventHandlerTaskWrapper.HandleDetached m_eventHandler IEvent.CEvent1
    ((w.toCout "i am here fuck you").toCout endl)

/-- The virtual `Run` of the runnables of the program: both inherit `CTask::Run`. -/
def Runnable.Run : Runnable → Action Runnable
  | .CTaskDummy m_eventHandler =>
    CTask.Run m_eventHandler (CTaskDummy.RunTask m_eventHandler)
  | .CTaskHandleEvent m_handler m_event =>
    CTask.Run HandlerClass.CEventHandlerNull (CTaskHandleEvent.RunTask m_handler m_event)

/-- The state `main` has built when it calls `Join`, if no worker has taken a turn
yet: a pool of 5, started, `dummyTask` posted, `Cancel`, `BroadcastFastCancell`. -/
def main.beforeJoin : World Runnable :=
  CThreadPool.BroadcastFastCancell
    (CThreadPool.Cancel
      (CThreadPool.PostRunnable (some (Runnable.CTaskDummy HandlerClass.CEventHandlerReadTask))
        (started 5)))

/-! ## Any class derived from `IEventHandler` -/

/-- A class derived from `IEventHandler`: for each method that `IEventHandler` declares
`virtual`, the body the class overrides it with, if it does.  `HandleEvent(const PEvent &)`
and `DefaultHandlerUnhandledException` are not virtual and have no entry. -/
structure Subclass (R : Type) where
  HandleEvent_CEventUnhandledException : Option (String → Action R)
  HandleEvent_CEventReadCompleted : Option (Action R)
  HandleEvent_CEventSocketError : Option (Action R)
  HandleEvent_CEvent1 : Option (Action R)
  UnexpectedEvent : Option (IEvent → Action R)

section Subclasses

variable {R : Type}

/-- The virtual call `this->UnexpectedEvent(event)` on an object of the class. -/
def Subclass.callUnexpectedEvent (self : Subclass R) (event : IEvent) : Action R :=
  match self.UnexpectedEvent with
  | some body => body event
  | none => IEventHandler.UnexpectedEvent event

/-- The virtual call `HandleEvent(const CEventUnhandledException &)` on an object of the
class; not overridden, it is the body in `IEventHandler`. -/
def Subclass.callHandleEvent_CEventUnhandledException (self : Subclass R)
    (exceptionMessage : String) : Action R :=
  match self.HandleEvent_CEventUnhandledException with
  | some body => body exceptionMessage
  | none => IEventHandler.DefaultHandlerUnhandledException exceptionMessage

/-- The virtual call `HandleEvent(const CEventReadCompleted &)` on an object of the class;
not overridden, it is the body in `IEventHandler`: `UnexpectedEvent(&event)`. -/
def Subclass.callHandleEvent_CEventReadCompleted (self : Subclass R) : Action R :=
  match self.HandleEvent_CEventReadCompleted with
  | some body => body
  | none => self.callUnexpectedEvent IEvent.CEventReadCompleted

/-- The virtual call `HandleEvent(const CEventSocketError &)` on an object of the class. -/
def Subclass.callHandleEvent_CEventSocketError (self : Subclass R) : Action R :=
  match self.HandleEvent_CEventSocketError with
  | some body => body
  | none => self.callUnexpectedEvent IEvent.CEventSocketError

/-- The virtual call `HandleEvent(const CEvent1 &)` on an object of the class. -/
def Subclass.callHandleEvent_CEvent1 (self : Subclass R) : Action R :=
  match self.HandleEvent_CEvent1 with
  | some body => body
  | none => self.callUnexpectedEvent IEvent.CEvent1

/-- The non-virtual `IEventHandler::HandleEvent(const PEvent &)` on an object of the
class: `event->PostToHandler(this)`. -/
def Subclass.HandleEvent (self : Subclass R) (event : IEvent) : Action R :=
  match event with
  | .CEventUnhandledException m => self.callHandleEvent_CEventUnhandledException m
  | .CEventReadCompleted => self.callHandleEvent_CEventReadCompleted
  | .CEventSocketError => self.callHandleEvent_CEventSocketError
  | .CEvent1 => self.callHandleEvent_CEvent1

/-- What each handler class of the program overrides. -/
def HandlerClass.toSubclass : HandlerClass → Subclass R
  | .IEventHandler =>
    { HandleEvent_CEventUnhandledException := none, HandleEvent_CEventReadCompleted := none,
      HandleEvent_CEventSocketError := none, HandleEvent_CEvent1 := none,
      UnexpectedEvent := none }
  | .CEventHandlerNull =>
    { HandleEvent_CEventUnhandledException := none, HandleEvent_CEventReadCompleted := none,
      HandleEvent_CEventSocketError := none, HandleEvent_CEvent1 := none,
      UnexpectedEvent := some CEventHandlerNull.UnexpectedEvent }
  | .CEventHandlerReadTask =>
    { HandleEvent_CEventUnhandledException := none,
      HandleEvent_CEventReadCompleted :=
        some CEventHandlerReadTask.HandleEvent_CEventReadCompleted,
      HandleEvent_CEventSocketError := some CEventHandlerReadTask.HandleEvent_CEventSocketError,
      HandleEvent_CEvent1 := none, UnexpectedEvent := none }
  | .CEventHandlerSomthing =>
    { HandleEvent_CEventUnhandledException := none, HandleEvent_CEventReadCompleted := none,
      HandleEvent_CEventSocketError := none, HandleEvent_CEvent1 := none,
      UnexpectedEvent := none }

/-- `CEventHandlerTaskWrapper::HandleYield` with a handler of any derived class. -/
def CEventHandlerTaskWrapper.HandleYieldOf (handler : Subclass R) (event : IEvent) :
    Action R :=
  handler.HandleEvent event

/-- `CTaskHandleEvent::RunTask` when `m_handler` is of any derived class. -/
def CTaskHandleEvent.RunTaskOf (m_handler : Subclass R) (m_event : IEvent) : Action R :=
  m_handler.HandleEvent m_event

/-- The `Run` of a `CTaskHandleEvent` built on a handler of any derived class: the
inherited `CTask::Run`, the `CTask` base holding the `new CEventHandlerNull` that the
constructor gave it. -/
def CTaskHandleEvent.RunOf (m_handler : Subclass R) (m_event : IEvent) : Action R :=
  CTask.Run HandlerClass.CEventHandlerNull (CTaskHandleEvent.RunTaskOf m_handler m_event)

/-- A move that puts no null pointer on the queue: a turn during which only non-null
runnables arrive, a `PostRunnable` of a non-null runnable, or a `Cancel`. -/
def Move.noSentinel : Move R → Bool
  | .turn _ arrived => arrived.all Option.isSome
  | .post runnable => runnable.isSome
  | .cancel => true
  | .broadcast => false

end Subclasses

/-! ## Specification-side definitions -/

namespace Spec

/-- The spec's `try_get() -> Option<T>`: returns the front item and removes it, or
signals empty immediately. -/
def try_get {T : Type} : List T → Option T × List T
  | [] => (none, [])
  | front :: rest => (some front, rest)

/-- The spec's `blocking_get(timeout) -> Option<T>`: if empty, waits for a wake signal
(during which `arrived` is put), then re-checks; returns an item if one is present after
waiting, otherwise signals "still empty". -/
def blocking_get {T : Type} (arrived : List T) (q : List T) : Option T × List T :=
  let afterWait := if q.isEmpty then q ++ arrived else q
  try_get afterWait

end Spec

end ll1

/-! # Theorems -/

namespace ll1

/-! ## Helper lemmas on the queue -/

theorem CSharedQueue.putAll_m_queue {T : Type} (xs : List T) (q : CSharedQueue T) :
    (q.putAll xs).m_queue = q.m_queue ++ xs := by
  induction xs generalizing q with
  | nil => simp [CSharedQueue.putAll]
  | cons x xs ih =>
    have h := ih (q.Put x)
    simp only [CSharedQueue.putAll, List.foldl_cons] at h ⊢
    rw [h]
    simp [CSharedQueue.Put]

theorem CSharedQueue.getMany_all {T : Type} (t0 : T) (l : List T) :
    CSharedQueue.getMany l.length t0 { m_queue := l }
      = (List.replicate l.length true, l, { m_queue := [] }) := by
  induction l with
  | nil => rfl
  | cons x l ih =>
    simp [CSharedQueue.getMany, CSharedQueue.GetNonblock, ih, List.replicate_succ]

theorem CSharedQueue.getMany_all_succ {T : Type} (t0 : T) (l : List T) :
    CSharedQueue.getMany (l.length + 1) t0 { m_queue := l }
      = (List.replicate l.length true ++ [false], l, { m_queue := [] }) := by
  induction l with
  | nil => rfl
  | cons x l ih =>
    have h : CSharedQueue.getMany (l.length + 1 + 1) t0 { m_queue := x :: l }
        = (true :: (CSharedQueue.getMany (l.length + 1) t0 { m_queue := l }).1,
           x :: (CSharedQueue.getMany (l.length + 1) t0 { m_queue := l }).2.1,
           (CSharedQueue.getMany (l.length + 1) t0 { m_queue := l }).2.2) := rfl
    simp only [List.length_cons]
    rw [h, ih]
    simp [List.replicate_succ]

theorem CSharedQueue.GetWaitblock_false {T : Type} (arrived : List T) (q q1 : CSharedQueue T)
    (t p : T) (h : q.GetWaitblock arrived t = (false, p, q1)) :
    p = t ∧ q1 = { m_queue := [] } ∧ q.m_queue = [] ∧ arrived = [] := by
  obtain ⟨l⟩ := q
  cases l <;> cases arrived <;>
    simp [CSharedQueue.GetWaitblock, CSharedQueue.timedWait] at h ⊢
  obtain ⟨h1, h2⟩ := h
  exact ⟨h1.symm, h2.symm⟩

/-! ## C6: the queue is first-in first-out -/

/-- C6. For every queue content and every list `xs`, putting the elements of `xs` in
order leaves the items already present in place and appends `xs` (a `Put` is a total
function: it cannot fail); then `|q| + |xs|` calls of `GetNonblock` all return true and
yield exactly `q ++ xs` in that order, leaving the queue empty; with one call more, the
last call returns false and yields nothing. -/
theorem C6_queue_fifo {T : Type} (q : CSharedQueue T) (xs : List T) (t0 : T) :
    (q.putAll xs).m_queue = q.m_queue ++ xs
    ∧ (∀ t, (q.Put t).m_queue = q.m_queue ++ [t])
    ∧ CSharedQueue.getMany (q.m_queue.length + xs.length) t0 (q.putAll xs)
        = (List.replicate (q.m_queue.length + xs.length) true, q.m_queue ++ xs,
           { m_queue := [] })
    ∧ CSharedQueue.getMany (q.m_queue.length + xs.length + 1) t0 (q.putAll xs)
        = (List.replicate (q.m_queue.length + xs.length) true ++ [false], q.m_queue ++ xs,
           { m_queue := [] }) := by
  have hq : q.putAll xs = { m_queue := q.m_queue ++ xs } := by
    have := CSharedQueue.putAll_m_queue xs q
    cases h : q.putAll xs
    simp_all
  refine ⟨CSharedQueue.putAll_m_queue xs q, fun t => rfl, ?_, ?_⟩
  · rw [hq, ← List.length_append]
    exact CSharedQueue.getMany_all t0 _
  · rw [hq, ← List.length_append]
    exact CSharedQueue.getMany_all_succ t0 _

/-! ## C9: the blocking dequeue -/

/-- C9. With the timed wait modelled as a list `arrived` put by other threads,
`GetWaitblock` agrees with the spec's `blocking_get`: it returns true exactly when the
queue is non-empty after the wait, the item it returns followed by the queue it leaves
is the queue after the wait (so exactly the front item is removed, and on false the
queue is left empty), on false the output argument is untouched, and on a queue that
is non-empty at entry the arrivals play no part and the result is that of `GetNonblock`. -/
theorem C9_blocking_dequeue {T : Type} (arrived : List T) (q : CSharedQueue T) (t : T) :
    (if (q.GetWaitblock arrived t).1 then some (q.GetWaitblock arrived t).2.1 else none,
        (q.GetWaitblock arrived t).2.2.m_queue) = Spec.blocking_get arrived q.m_queue
    ∧ ((q.GetWaitblock arrived t).1 = true
        ↔ (if q.m_queue.isEmpty then q.m_queue ++ arrived else q.m_queue) ≠ [])
    ∧ CSharedQueue.taken (q.GetWaitblock arrived t).1 (q.GetWaitblock arrived t).2.1
          ++ (q.GetWaitblock arrived t).2.2.m_queue
        = (if q.m_queue.isEmpty then q.m_queue ++ arrived else q.m_queue)
    ∧ ((q.GetWaitblock arrived t).1 = true
        ∨ ((q.GetWaitblock arrived t).2.1 = t ∧ (q.GetWaitblock arrived t).2.2.m_queue = []))
    ∧ (∀ front rest, CSharedQueue.GetWaitblock arrived { m_queue := front :: rest } t
        = CSharedQueue.GetNonblock { m_queue := front :: rest } t)
    ∧ CSharedQueue.GetWaitblock arrived { m_queue := [] } t
        = CSharedQueue.GetNonblock { m_queue := arrived } t := by
  obtain ⟨l⟩ := q
  refine ⟨?_, ?_, ?_, ?_, ?_, ?_⟩
  · cases l <;> cases arrived <;> rfl
  · cases l <;> cases arrived <;>
      simp [CSharedQueue.GetWaitblock, CSharedQueue.timedWait]
  · cases l <;> cases arrived <;> rfl
  · cases l <;> cases arrived <;>
      simp [CSharedQueue.GetWaitblock, CSharedQueue.timedWait]
  · intro front rest
    rfl
  · cases arrived <;> rfl

/-! ## C10: the non-blocking dequeue -/

/-- C10. `GetNonblock` on an empty queue returns false, leaves the queue empty and
leaves the output argument as it was; on a queue `front :: rest` it returns true, sets
the output to `front` and leaves exactly `rest` (one item fewer, order kept), as the
spec's `try_get` does; `IsEmpty` returns true exactly when the queue holds no items. -/
theorem C10_nonblocking_dequeue {T : Type} (t front : T) (rest : List T)
    (q : CSharedQueue T) :
    CSharedQueue.GetNonblock { m_queue := [] } t = (false, t, { m_queue := [] })
    ∧ CSharedQueue.GetNonblock { m_queue := front :: rest } t
        = (true, front, { m_queue := rest })
    ∧ (CSharedQueue.taken (q.GetNonblock t).1 (q.GetNonblock t).2.1).length
          + (q.GetNonblock t).2.2.m_queue.length
        = q.m_queue.length
    ∧ CSharedQueue.taken (q.GetNonblock t).1 (q.GetNonblock t).2.1 ++ (q.GetNonblock t).2.2.m_queue = q.m_queue
    ∧ (if (q.GetNonblock t).1 then some (q.GetNonblock t).2.1 else none,
        (q.GetNonblock t).2.2.m_queue) = Spec.try_get q.m_queue
    ∧ ((q.GetNonblock t).1 = true ↔ q.m_queue ≠ [])
    ∧ (q.IsEmpty = true ↔ q.m_queue = []) := by
  obtain ⟨l⟩ := q
  refine ⟨rfl, rfl, ?_, ?_, ?_, ?_, ?_⟩
  · cases l <;> simp [CSharedQueue.GetNonblock, CSharedQueue.taken]
    omega
  · cases l <;> rfl
  · cases l <;> rfl
  · cases l <;> simp [CSharedQueue.GetNonblock]
  · cases l <;> simp [CSharedQueue.IsEmpty]

/-! ## C5: dispatch on a `CEventHandlerReadTask` -/

/-- C5. Delivering an event to a `CEventHandlerReadTask` through
`HandleEvent(const PEvent&)` runs the one method that matches the event's variant and
returns: `CEventReadCompleted` and `CEventSocketError` run the overriding methods, which
write the explanation ("Read success!", "socket error") and a newline; `CEvent1` runs
the base method and its unexpected-event hook, which writes "Unexpected Event!event1"
and a newline; `CEventUnhandledException(m)` runs the default exception handler, which
writes "UNHANDLED exception : m" and a newline.  Nothing else changes. -/
theorem C5_dispatch_read_task {R : Type} (w : World R) (m : String) :
    (HandlerClass.HandleEvent HandlerClass.CEventHandlerReadTask IEvent.CEventReadCompleted
        = (CEventHandlerReadTask.HandleEvent_CEventReadCompleted : Action R)
      ∧ HandlerClass.HandleEvent HandlerClass.CEventHandlerReadTask IEvent.CEventReadCompleted w
        = (Outcome.returned, { w with cout := w.cout ++ "Read success!\n" }))
    ∧ (HandlerClass.HandleEvent HandlerClass.CEventHandlerReadTask IEvent.CEventSocketError
        = (CEventHandlerReadTask.HandleEvent_CEventSocketError : Action R)
      ∧ HandlerClass.HandleEvent HandlerClass.CEventHandlerReadTask IEvent.CEventSocketError w
        = (Outcome.returned, { w with cout := w.cout ++ "socket error\n" }))
    ∧ (HandlerClass.HandleEvent HandlerClass.CEventHandlerReadTask IEvent.CEvent1
        = (IEventHandler.HandleEvent_CEvent1 HandlerClass.CEventHandlerReadTask : Action R)
      ∧ (IEventHandler.HandleEvent_CEvent1 HandlerClass.CEventHandlerReadTask : Action R)
        = IEventHandler.UnexpectedEvent IEvent.CEvent1
      ∧ HandlerClass.HandleEvent HandlerClass.CEventHandlerReadTask IEvent.CEvent1 w
        = (Outcome.returned, { w with cout := w.cout ++ "Unexpected Event!event1\n" }))
    ∧ (HandlerClass.HandleEvent HandlerClass.CEventHandlerReadTask
          (IEvent.CEventUnhandledException m)
        = (IEventHandler.DefaultHandlerUnhandledException m : Action R)
      ∧ HandlerClass.HandleEvent HandlerClass.CEventHandlerReadTask
          (IEvent.CEventUnhandledException m) w
        = (Outcome.returned,
            { w with cout := w.cout ++ ("UNHANDLED exception : " ++ m ++ "\n") })) := by
  refine ⟨⟨rfl, ?_⟩, ⟨rfl, ?_⟩, ⟨rfl, rfl, ?_⟩, ⟨rfl, ?_⟩⟩
  · simp [HandlerClass.HandleEvent, IEvent.PostToHandler,
      HandlerClass.HandleEvent_CEventReadCompleted,
      CEventHandlerReadTask.HandleEvent_CEventReadCompleted, World.toCout, endl,
      IEvent.GetExplanation, String.append_assoc]
  · simp [HandlerClass.HandleEvent, IEvent.PostToHandler,
      HandlerClass.HandleEvent_CEventSocketError,
      CEventHandlerReadTask.HandleEvent_CEventSocketError, World.toCout, endl,
      IEvent.GetExplanation, String.append_assoc]
  · simp [HandlerClass.HandleEvent, IEvent.PostToHandler, HandlerClass.HandleEvent_CEvent1,
      IEventHandler.HandleEvent_CEvent1, HandlerClass.UnexpectedEvent,
      IEventHandler.UnexpectedEvent, World.toCout, endl,
      IEvent.GetExplanation, String.append_assoc]
  · simp [HandlerClass.HandleEvent, IEvent.PostToHandler,
      HandlerClass.HandleEvent_CEventUnhandledException,
      IEventHandler.HandleEvent_CEventUnhandledException,
      IEventHandler.DefaultHandlerUnhandledException, World.toCout, endl,
      String.append_assoc]

/-! ## C8: one sentinel per worker -/

theorem CThreadPool.broadcast_loop_spec {R : Type} (k : Nat) (w : World R) :
    (BroadcastFastCancell.loop k w).tp.m_queue.m_queue
        = w.tp.m_queue.m_queue ++ List.replicate k none
    ∧ (BroadcastFastCancell.loop k w).tp.m_cancel = w.tp.m_cancel
    ∧ (BroadcastFastCancell.loop k w).tp.m_threads = w.tp.m_threads
    ∧ (BroadcastFastCancell.loop k w).tp.m_threadsCnt = w.tp.m_threadsCnt
    ∧ (BroadcastFastCancell.loop k w).cout = w.cout := by
  induction k generalizing w with
  | zero => simp [BroadcastFastCancell.loop]
  | succ k ih =>
    simp only [BroadcastFastCancell.loop]
    obtain ⟨h1, h2, h3, h4, h5⟩ := ih
      ({ w with tp := { w.tp with m_queue := w.tp.m_queue.Put none } }.toCerr
        ("cancel broad" ++ endl))
    refine ⟨?_, h2, h3, h4, h5⟩
    rw [h1]
    simp [World.toCerr, CSharedQueue.Put, List.replicate_succ]

theorem CThreadPool.run_loop_spec {R : Type} (k : Nat) (w : World R) :
    (Run.loop k w).tp.m_threads = w.tp.m_threads ++ List.replicate k ThreadState.looping
    ∧ (Run.loop k w).tp.m_queue = w.tp.m_queue
    ∧ (Run.loop k w).tp.m_cancel = w.tp.m_cancel
    ∧ (Run.loop k w).tp.m_threadsCnt = w.tp.m_threadsCnt
    ∧ (Run.loop k w).cout = w.cout := by
  induction k generalizing w with
  | zero => simp [Run.loop]
  | succ k ih =>
    simp only [Run.loop]
    obtain ⟨h1, h2, h3, h4, h5⟩ := ih
      ({ w with tp := { w.tp with m_threads := w.tp.m_threads ++ [ThreadState.looping] } }.toCerr
        ("thread up" ++ endl))
    refine ⟨?_, h2, h3, h4, h5⟩
    rw [h1]
    simp [World.toCerr, List.replicate_succ]

/-- C8. A pool constructed with thread count `n` records `n`, and `Run` spawns exactly
that many workers; for every pool state, after `BroadcastFastCancell` the queue is its
former content followed by exactly `m_threadsCnt` null entries, and the cancel flag,
the workers, the thread count and `cout` are unchanged. -/
theorem C8_broadcast_one_sentinel_per_worker {R : Type} (n : Nat) (w : World R) :
    (CThreadPool.new n : CThreadPool R).m_threadsCnt = n
    ∧ (CThreadPool.Run w).tp.m_threads
        = w.tp.m_threads ++ List.replicate w.tp.m_threadsCnt ThreadState.looping
    ∧ (CThreadPool.Run w).tp.m_threadsCnt = w.tp.m_threadsCnt
    ∧ (CThreadPool.BroadcastFastCancell w).tp.m_queue.m_queue
        = w.tp.m_queue.m_queue ++ List.replicate w.tp.m_threadsCnt none
    ∧ (CThreadPool.BroadcastFastCancell w).tp.m_cancel = w.tp.m_cancel
    ∧ (CThreadPool.BroadcastFastCancell w).tp.m_threads = w.tp.m_threads
    ∧ (CThreadPool.BroadcastFastCancell w).tp.m_threadsCnt = w.tp.m_threadsCnt
    ∧ (CThreadPool.BroadcastFastCancell w).cout = w.cout := by
  obtain ⟨h1, h2, h3, h4, h5⟩ := CThreadPool.broadcast_loop_spec w.tp.m_threadsCnt w
  obtain ⟨g1, _, _, g4, _⟩ := CThreadPool.run_loop_spec w.tp.m_threadsCnt w
  exact ⟨rfl, g1, g4, h1, h2, h3, h4, h5⟩

/-! ## C3: a failing task is reported to its handler -/

/-- C3. For every handler class `h` and every `RunTask`, `CTask::Run` returns without
an exception.  When `RunTask` throws, `Run` is exactly one `HandleYield` of
`CEventUnhandledException("unknown exception")` to `h`, made before `Run` returns, whose
whole effect is the line "UNHANDLED exception : unknown exception" on `cout`; when
`RunTask` returns, `Run` adds only "TASK STOP" on `cerr`: the handler gets nothing. -/
theorem C3_task_failure_wrapping {R : Type} (h : HandlerClass) (RunTask : Action R)
    (w : World R) :
    (CTask.Run h RunTask w).1 = Outcome.returned
    ∧ (∀ w1, RunTask (w.toCerr ("TASK RUN" ++ endl)) = (Outcome.threw, w1) →
        CTask.Run h RunTask w
          = CEventHandlerTaskWrapper.HandleYield h
              (IEvent.CEventUnhandledException "unknown exception")
              (w1.toCerr ("TASK STOP" ++ endl))
        ∧ CTask.Run h RunTask w
          = (Outcome.returned,
              { w1 with
                cout := w1.cout ++ "UNHANDLED exception : unknown exception\n",
                cerr := w1.cerr ++ "TASK STOP\n" }))
    ∧ (∀ w1, RunTask (w.toCerr ("TASK RUN" ++ endl)) = (Outcome.returned, w1) →
        CTask.Run h RunTask w
          = (Outcome.returned, { w1 with cerr := w1.cerr ++ "TASK STOP\n" })) := by
  have hy : ∀ v : World R, CEventHandlerTaskWrapper.HandleYield h
      (IEvent.CEventUnhandledException "unknown exception") v
      = (Outcome.returned,
          { v with cout := v.cout ++ "UNHANDLED exception : unknown exception\n" }) := by
    intro v
    simp [CEventHandlerTaskWrapper.HandleYield, HandlerClass.HandleEvent,
      IEvent.PostToHandler, HandlerClass.HandleEvent_CEventUnhandledException,
      IEventHandler.HandleEvent_CEventUnhandledException,
      IEventHandler.DefaultHandlerUnhandledException, World.toCout, endl,
      String.append_assoc]
  refine ⟨?_, ?_, ?_⟩
  · unfold CTask.Run
    rcases hr : RunTask (w.toCerr ("TASK RUN" ++ endl)) with ⟨o, w1⟩
    cases o
    · simp
    · simp [hy]
  · intro w1 hr
    have e : CTask.Run h RunTask w
        = CEventHandlerTaskWrapper.HandleYield h
            (IEvent.CEventUnhandledException "unknown exception")
            (w1.toCerr ("TASK STOP" ++ endl)) := by
      unfold CTask.Run
      simp [hr]
    refine ⟨e, ?_⟩
    rw [e, hy]
    simp [World.toCerr, endl]
  · intro w1 hr
    unfold CTask.Run
    simp only [hr]
    simp [World.toCerr, endl]

/-- Witness for C3: a `RunTask` that throws at once, in a task built with a
`CEventHandlerReadTask`, on the state of a new pool. -/
theorem C3_task_failure_wrapping_witness :
    CTask.Run HandlerClass.CEventHandlerReadTask (fun v => (Outcome.threw, v))
        ({ tp := CThreadPool.new 1, cout := "", cerr := "" } : World Unit)
      = (Outcome.returned,
          { ({ tp := CThreadPool.new 1, cout := "", cerr := "" } : World Unit).toCerr
              ("TASK RUN" ++ endl) with
            cout := "" ++ "UNHANDLED exception : unknown exception\n",
            cerr := ("" ++ ("TASK RUN" ++ endl)) ++ "TASK STOP\n" }) :=
  ((C3_task_failure_wrapping HandlerClass.CEventHandlerReadTask
      (fun v => (Outcome.threw, v))
      ({ tp := CThreadPool.new 1, cout := "", cerr := "" } : World Unit)).2.1 _ rfl).2

/-! ## C7: the sentinel rendezvous -/

/-- C7. For every pool state, a turn of the worker loop takes the `break` if and only
if `GetWaitblock` returned a null pointer while the cancel flag is set and the queue is
empty after that dequeue.  In every other sentinel case the turn only removes the
sentinel: nothing is run, nothing is written, the flag and the rest of the queue are as
before, and the loop goes round again.  A turn that times out goes round again with the
state unchanged, and a turn that takes a real runnable never takes the `break`. -/
theorem C7_sentinel_rendezvous {R : Type} (NDEBUG : Bool) (Run : R → Action R)
    (arrived : List (Option R)) (w : World R) :
    ((CThreadPool.ThreadRun.turn NDEBUG Run arrived w).ctl = CThreadPool.Ctl.leave
      ↔ (w.tp.m_queue.GetWaitblock arrived none).1 = true
        ∧ (w.tp.m_queue.GetWaitblock arrived none).2.1 = none
        ∧ w.tp.m_cancel = true
        ∧ (w.tp.m_queue.GetWaitblock arrived none).2.2.m_queue = [])
    ∧ ((w.tp.m_queue.GetWaitblock arrived none).1 = true →
        (w.tp.m_queue.GetWaitblock arrived none).2.1 = none →
        ¬ (w.tp.m_cancel = true
            ∧ (w.tp.m_queue.GetWaitblock arrived none).2.2.m_queue = []) →
        CThreadPool.ThreadRun.turn NDEBUG Run arrived w
          = { ctl := CThreadPool.Ctl.again, got := true, p := none,
              world := { w with tp := { w.tp with
                m_queue := (w.tp.m_queue.GetWaitblock arrived none).2.2 } } })
    ∧ ((w.tp.m_queue.GetWaitblock arrived none).1 = false →
        CThreadPool.ThreadRun.turn NDEBUG Run arrived w
          = { ctl := CThreadPool.Ctl.again, got := false, p := none,
              world := { w with tp := { w.tp with m_queue := { m_queue := [] } } } }
        ∧ w.tp.m_queue.m_queue = [])
    ∧ (∀ r, (w.tp.m_queue.GetWaitblock arrived none).2.1 = some r →
        (CThreadPool.ThreadRun.turn NDEBUG Run arrived w).ctl ≠ CThreadPool.Ctl.leave) := by
  unfold CThreadPool.ThreadRun.turn
  rcases hg : w.tp.m_queue.GetWaitblock arrived none with ⟨b, p, q1⟩
  cases b
  · obtain ⟨hp, hq1, hw, _⟩ := CSharedQueue.GetWaitblock_false _ _ _ _ _ hg
    subst hp hq1
    simp [hw]
  · cases p with
    | none =>
      by_cases hc : w.tp.m_cancel = true <;> by_cases he : q1.m_queue = [] <;>
        simp [hc, he, CSharedQueue.IsEmpty]
    | some r =>
      simp only []
      split <;> cases NDEBUG <;> simp

/-- Witness for C7 on the program's runnables: with the flag set and the queue holding
one sentinel the turn takes the `break`; with two sentinels queued it only removes one;
on an empty queue with no arrival it times out. -/
theorem C7_sentinel_rendezvous_witness :
    (CThreadPool.ThreadRun.turn false Runnable.Run [] (shutdown 1)).ctl
        = CThreadPool.Ctl.leave
    ∧ (CThreadPool.ThreadRun.turn false Runnable.Run [] (shutdown 2)).ctl
        = CThreadPool.Ctl.again
    ∧ (CThreadPool.ThreadRun.turn false Runnable.Run [] (posted 1 [])).got = false :=
  ⟨(C7_sentinel_rendezvous false Runnable.Run [] (shutdown 1)).1.mpr ⟨rfl, rfl, rfl, rfl⟩,
   congrArg CThreadPool.Turn.ctl
    ((C7_sentinel_rendezvous false Runnable.Run [] (shutdown 2)).2.1 rfl rfl (by decide)),
   congrArg CThreadPool.Turn.got
    ((C7_sentinel_rendezvous false Runnable.Run [] (posted 1 [])).2.2.1 rfl).1⟩

/-! ## C4: an exception that reaches the worker loop -/

/-- C4, as stated, fails: compiled without `NDEBUG`, a turn that takes a runnable whose
`Run` throws ends in `assert(false)`: the loop does not go round again and the process
is aborted, with the next runnable still queued. -/
theorem C4_counterexample :
    ¬ (CThreadPool.ThreadRun.turn false (fun (_ : Unit) v => (Outcome.threw, v)) []
        (posted 1 [(), ()])).ctl = CThreadPool.Ctl.again
    ∧ (step false (fun (_ : Unit) v => (Outcome.threw, v)) (Move.turn 0 [])
        { world := posted 1 [(), ()], aborted := false }).1.aborted = true
    ∧ (step false (fun (_ : Unit) v => (Outcome.threw, v)) (Move.turn 0 [])
        { world := posted 1 [(), ()], aborted := false }).1.world.tp.m_queue.m_queue
        = [some ()] := by
  refine ⟨?_, ?_, ?_⟩
  · decide
  · rfl
  · rfl

/-- C4, amended. A turn that takes a non-null runnable whose `Run` throws catches the
exception and writes "unexpected exception in thread pool!" on `cerr`.  Compiled with
`NDEBUG` the loop goes round again (no `break`, no abort), and if a non-null runnable is
then at the front of the queue the next turn takes it and invokes its `Run`.  Compiled
without `NDEBUG` the turn ends in `assert(false)`. -/
theorem C4_backstop {R : Type} (Run : R → Action R) (arrived : List (Option R))
    (w w1 : World R) (r : R) (q1 : CSharedQueue (Option R))
    (hget : w.tp.m_queue.GetWaitblock arrived none = (true, some r, q1))
    (hthrow : Run r { w with tp := { w.tp with m_queue := q1 } } = (Outcome.threw, w1)) :
    CThreadPool.ThreadRun.turn true Run arrived w
        = { ctl := CThreadPool.Ctl.again, got := true, p := some r,
            world := w1.toCerr "unexpected exception in thread pool!" }
    ∧ CThreadPool.ThreadRun.turn false Run arrived w
        = { ctl := CThreadPool.Ctl.abort, got := true, p := some r,
            world := w1.toCerr "unexpected exception in thread pool!" }
    ∧ (∀ (arrived2 : List (Option R)) (r2 : R) (rest2 : List (Option R)),
        w1.tp.m_queue.m_queue = some r2 :: rest2 →
        (CThreadPool.ThreadRun.turn true Run arrived2
            (w1.toCerr "unexpected exception in thread pool!")).got = true
        ∧ (CThreadPool.ThreadRun.turn true Run arrived2
            (w1.toCerr "unexpected exception in thread pool!")).p = some r2
        ∧ ((CThreadPool.ThreadRun.turn true Run arrived2
              (w1.toCerr "unexpected exception in thread pool!")).world
            = (Run r2 { w1.toCerr "unexpected exception in thread pool!" with
                  tp := { w1.tp with m_queue := { m_queue := rest2 } } }).2
          ∨ (CThreadPool.ThreadRun.turn true Run arrived2
              (w1.toCerr "unexpected exception in thread pool!")).world
            = ((Run r2 { w1.toCerr "unexpected exception in thread pool!" with
                  tp := { w1.tp with m_queue := { m_queue := rest2 } } }).2).toCerr
                "unexpected exception in thread pool!")) := by
  refine ⟨?_, ?_, ?_⟩
  · unfold CThreadPool.ThreadRun.turn
    simp only [hget, hthrow]
    simp
  · unfold CThreadPool.ThreadRun.turn
    simp only [hget, hthrow]
    simp
  · intro arrived2 r2 rest2 hq
    have hg2 : (w1.toCerr "unexpected exception in thread pool!").tp.m_queue.GetWaitblock
        arrived2 none = (true, some r2, { m_queue := rest2 }) := by
      simp [World.toCerr, CSharedQueue.GetWaitblock, hq]
    unfold CThreadPool.ThreadRun.turn
    simp only [hg2]
    rcases hr : Run r2 { w1.toCerr "unexpected exception in thread pool!" with
        tp := { (w1.toCerr "unexpected exception in thread pool!").tp with
          m_queue := { m_queue := rest2 } } } with ⟨o, w2⟩
    have hr2 : Run r2 { w1.toCerr "unexpected exception in thread pool!" with
        tp := { w1.tp with m_queue := { m_queue := rest2 } } } = (o, w2) := hr
    rw [hr2]
    cases o <;> simp

/-- Witness for C4: two runnables whose `Run` throws, posted to a pool of one thread. -/
theorem C4_backstop_witness :
    CThreadPool.ThreadRun.turn true (fun (_ : Unit) v => (Outcome.threw, v)) []
        (posted 1 [(), ()])
      = { ctl := CThreadPool.Ctl.again, got := true, p := some (),
          world := ({ posted 1 [(), ()] with
            tp := { (posted 1 [(), ()]).tp with m_queue := { m_queue := [some ()] } } }).toCerr
              "unexpected exception in thread pool!" } :=
  (C4_backstop (fun (_ : Unit) v => (Outcome.threw, v)) [] (posted 1 [(), ()]) _ ()
    { m_queue := [some ()] } rfl rfl).1

/-! ## C2: shutdown -/

theorem count_set_down (l : List ThreadState) (i : Nat)
    (h : l.get? i = some ThreadState.looping) :
    (l.set i ThreadState.down).count ThreadState.down = l.count ThreadState.down + 1 := by
  induction l generalizing i with
  | nil => simp at h
  | cons a l ih =>
    cases i with
    | zero =>
      simp at h
      subst h
      simp [List.count_cons]
    | succ i =>
      simp at h
      have := ih i (by simpa using h)
      simp [List.count_cons, this]
      omega

theorem count_eq_length_of_all_down (l : List ThreadState)
    (h : l.all (fun t => t == ThreadState.down) = true) :
    l.count ThreadState.down = l.length := by
  induction l with
  | nil => rfl
  | cons a l ih =>
    simp at h
    obtain ⟨h1, h2⟩ := h
    subst h1
    have := ih (by simpa using h2)
    simp [this]

theorem started_state {R : Type} (n : Nat) :
    (started n : World R).tp.m_threads = List.replicate n ThreadState.looping
    ∧ (started n : World R).tp.m_queue = { m_queue := [] }
    ∧ (started n : World R).tp.m_cancel = false
    ∧ (started n : World R).tp.m_threadsCnt = n := by
  obtain ⟨g1, g2, g3, g4, _⟩ := CThreadPool.run_loop_spec n
    ({ tp := CThreadPool.new n, cout := "", cerr := "" } : World R)
  refine ⟨?_, g2, g3, g4⟩
  have : (started n : World R).tp.m_threads
      = [] ++ List.replicate n ThreadState.looping := g1
  simpa using this

theorem shutdown_state {R : Type} (n : Nat) :
    (shutdown n : World R).tp.m_queue.m_queue = List.replicate n none
    ∧ (shutdown n : World R).tp.m_threads = List.replicate n ThreadState.looping
    ∧ (shutdown n : World R).tp.m_cancel = true := by
  obtain ⟨g1, g2, g3, g4⟩ := started_state (R := R) n
  obtain ⟨h1, h2, h3, _, _⟩ := CThreadPool.broadcast_loop_spec n
    (CThreadPool.Cancel (started n : World R))
  have hcnt : (CThreadPool.Cancel (started n : World R)).tp.m_threadsCnt = n := g4
  have e : (shutdown n : World R)
      = CThreadPool.BroadcastFastCancell.loop n (CThreadPool.Cancel (started n)) := by
    unfold shutdown CThreadPool.BroadcastFastCancell
    rw [hcnt]
  rw [e]
  refine ⟨?_, ?_, ?_⟩
  · rw [h1]
    have : (CThreadPool.Cancel (started n : World R)).tp.m_queue = { m_queue := [] } := g2
    simp [this]
  · rw [h3]
    exact g1
  · rw [h2]
    rfl

theorem workerTurn_onlySentinels {R : Type} (NDEBUG : Bool) (Run : R → Action R) (len i : Nat)
    (s : Process R) (h : OnlySentinels len s) :
    OnlySentinels len (workerTurn NDEBUG Run i [] s).1 := by
  obtain ⟨ha, hl, k, hq, hd⟩ := h
  unfold workerTurn
  rcases hi : s.world.tp.m_threads.get? i with _ | t
  · exact ⟨ha, hl, k, hq, hd⟩
  cases t
  swap
  · exact ⟨ha, hl, k, hq, hd⟩
  simp only []
  cases k with
  | zero =>
    have ht : CThreadPool.ThreadRun.turn NDEBUG Run [] s.world
        = { ctl := CThreadPool.Ctl.again, got := false, p := none,
            world := { s.world with tp := { s.world.tp with m_queue := { m_queue := [] } } } } := by
      unfold CThreadPool.ThreadRun.turn
      simp [CSharedQueue.GetWaitblock, CSharedQueue.timedWait, hq]
    rw [ht]
    exact ⟨rfl, hl, 0, rfl, hd⟩
  | succ k =>
    have hd0 : downCount s.world = 0 := by
      rcases hd with h0 | ⟨_, h1⟩
      · exact h0
      · omega
    have hg : s.world.tp.m_queue.GetWaitblock [] none
        = (true, none, { m_queue := List.replicate k none }) := by
      simp [CSharedQueue.GetWaitblock, hq, List.replicate_succ]
    by_cases hx : (s.world.tp.m_cancel && decide (k = 0)) = true
    · have ht : CThreadPool.ThreadRun.turn NDEBUG Run [] s.world
          = { ctl := CThreadPool.Ctl.leave, got := true, p := none,
              world := ({ s.world with tp := { s.world.tp with
                m_queue := { m_queue := List.replicate k none } } }).toCerr ("TD" ++ endl) } := by
        unfold CThreadPool.ThreadRun.turn
        simp only [hg]
        simp at hx
        simp [CSharedQueue.IsEmpty, hx]
      rw [ht]
      simp at hx
      refine ⟨rfl, ?_, 0, ?_, Or.inr ⟨?_, rfl⟩⟩
      · simp [World.toCerr, hl]
      · simp [World.toCerr, hx.2]
      · simp only [downCount, World.toCerr]
        rw [count_set_down _ _ hi]
        simp only [downCount] at hd0
        omega
    · have ht : CThreadPool.ThreadRun.turn NDEBUG Run [] s.world
          = { ctl := CThreadPool.Ctl.again, got := true, p := none,
              world := { s.world with tp := { s.world.tp with
                m_queue := { m_queue := List.replicate k none } } } } := by
        unfold CThreadPool.ThreadRun.turn
        simp only [hg]
        have hx2 : s.world.tp.m_cancel = true → ¬ k = 0 := by
          intro hc hk
          apply hx
          simp [hc, hk]
        simpa [CSharedQueue.IsEmpty] using hx2
      rw [ht]
      exact ⟨rfl, hl, k, rfl, Or.inl hd0⟩

theorem exec_quiet_onlySentinels {R : Type} (NDEBUG : Bool) (Run : R → Action R) (len : Nat)
    (is : List Nat) (s : Process R) (h : OnlySentinels len s) :
    OnlySentinels len (exec NDEBUG Run (quiet is) s).1 := by
  induction is generalizing s with
  | nil => exact h
  | cons i is ih =>
    have hstep : step NDEBUG Run (Move.turn i []) s = workerTurn NDEBUG Run i [] s := by
      simp [step, h.1]
    have h1 := workerTurn_onlySentinels NDEBUG Run len i s h
    simp only [quiet, List.map_cons, exec, hstep]
    rcases hw : workerTurn NDEBUG Run i [] s with ⟨s1, o⟩
    rw [hw] at h1
    cases o with
    | none => exact ih s1 h1
    | some o => exact ih s1 h1

/-- C2 fails on the code for every pool of two or more threads.  After `Run`, `Cancel`
and `BroadcastFastCancell` with nothing posted, whatever the schedule of worker turns,
at most one thread has left its loop, so `Join` cannot return: a worker takes the
`break` only on a sentinel that leaves the queue empty, and the other sentinels are in
the queue until the last one is taken.  With two threads, after one turn of each the
queue is empty and thread 0 is still in its loop, where it stays. -/
theorem C2_shutdown_stalls {R : Type} (NDEBUG : Bool) (Run : R → Action R) (n : Nat)
    (is : List Nat) :
    downCount (exec NDEBUG Run (quiet is) { world := shutdown (n + 2), aborted := false }).1.world
        ≤ 1
    ∧ (exec NDEBUG Run (quiet is)
        { world := shutdown (n + 2), aborted := false }).1.world.tp.m_threads.length = n + 2
    ∧ CThreadPool.Join.returns
        (exec NDEBUG Run (quiet is) { world := shutdown (n + 2), aborted := false }).1.world
        = false
    ∧ (exec NDEBUG Run (quiet [0, 1])
        { world := shutdown 2, aborted := false }).1.world.tp.m_queue.m_queue = []
    ∧ (exec NDEBUG Run (quiet [0, 1])
        { world := shutdown 2, aborted := false }).1.world.tp.m_threads
        = [ThreadState.looping, ThreadState.down] := by
  have h0 : OnlySentinels (n + 2)
      ({ world := shutdown (n + 2), aborted := false } : Process R) := by
    obtain ⟨h1, h2, _⟩ := shutdown_state (R := R) (n + 2)
    refine ⟨rfl, ?_, n + 2, h1, Or.inl ?_⟩
    · simp [h2]
    · simp only [downCount, h2]
      exact List.count_eq_zero_of_not_mem (by simp)
  obtain ⟨_, hl, k, _, hd⟩ := exec_quiet_onlySentinels NDEBUG Run (n + 2) is _ h0
  have hle : downCount (exec NDEBUG Run (quiet is)
      { world := shutdown (n + 2), aborted := false }).1.world ≤ 1 := by
    rcases hd with h | ⟨h, _⟩ <;> omega
  refine ⟨hle, hl, ?_, rfl, rfl⟩
  by_contra hj
  have hj2 : CThreadPool.Join.returns (exec NDEBUG Run (quiet is)
      { world := shutdown (n + 2), aborted := false }).1.world = true := by
    simpa using hj
  have := count_eq_length_of_all_down _ hj2
  simp only [downCount] at hle
  omega

/-! ## C1: every posted runnable is run exactly once -/

theorem CSharedQueue.GetWaitblock_conserve {T : Type} (arrived : List T) (q : CSharedQueue T)
    (t : T) :
    CSharedQueue.taken (q.GetWaitblock arrived t).1 (q.GetWaitblock arrived t).2.1
        ++ (q.GetWaitblock arrived t).2.2.m_queue
      = q.m_queue ++ (if q.m_queue.isEmpty then arrived else []) := by
  obtain ⟨l⟩ := q
  cases l <;> cases arrived <;>
    simp [CSharedQueue.GetWaitblock, CSharedQueue.timedWait, CSharedQueue.taken]

theorem turn_conserve {R : Type} (NDEBUG : Bool) (Run : R → Action R) (hRun : PostsOnly Run)
    (arrived : List (Option R)) (w : World R) :
    ∃ new : List (Option R),
      CSharedQueue.taken (CThreadPool.ThreadRun.turn NDEBUG Run arrived w).got
          (CThreadPool.ThreadRun.turn NDEBUG Run arrived w).p
        ++ (CThreadPool.ThreadRun.turn NDEBUG Run arrived w).world.tp.m_queue.m_queue
        = w.tp.m_queue.m_queue ++ new
      ∧ ((∀ e ∈ arrived, e ≠ none) → ∀ e ∈ new, e ≠ none) := by
  have hc := CSharedQueue.GetWaitblock_conserve arrived w.tp.m_queue none
  have harr : (∀ e ∈ arrived, e ≠ none) →
      ∀ e ∈ (if w.tp.m_queue.m_queue.isEmpty then arrived else []), e ≠ none := by
    intro h e he
    split at he
    · exact h e he
    · simp at he
  unfold CThreadPool.ThreadRun.turn
  rcases hg : w.tp.m_queue.GetWaitblock arrived none with ⟨b, p, q1⟩
  rw [hg] at hc
  simp only [] at hc
  cases b
  · exact ⟨_, hc, harr⟩
  · cases p with
    | none =>
      simp only []
      split
      · exact ⟨_, hc, harr⟩
      · exact ⟨_, hc, harr⟩
    | some r =>
      simp only []
      obtain ⟨ps, hps⟩ := hRun r { w with tp := { w.tp with m_queue := q1 } }
      have key : CSharedQueue.taken true (some r)
            ++ (Run r { w with tp := { w.tp with m_queue := q1 } }).2.tp.m_queue.m_queue
          = w.tp.m_queue.m_queue
            ++ ((if w.tp.m_queue.m_queue.isEmpty then arrived else []) ++ ps.map some) := by
        have hps2 : (Run r { w with tp := { w.tp with m_queue := q1 } }).2.tp.m_queue.m_queue
            = q1.m_queue ++ ps.map some := hps
        rw [hps2, ← List.append_assoc, ← List.append_assoc, hc]
      have hnew : (∀ e ∈ arrived, e ≠ none) →
          ∀ e ∈ ((if w.tp.m_queue.m_queue.isEmpty then arrived else []) ++ ps.map some),
            e ≠ none := by
        intro h e he
        rcases List.mem_append.mp he with h1 | h1
        · exact harr h e h1
        · obtain ⟨x, _, hx⟩ := List.mem_map.mp h1
          rw [← hx]
          simp
      split
      · rename_i w1 heq
        refine ⟨_, ?_, hnew⟩
        rw [← key]
        simp only []
        have : (Run r { w with tp := { w.tp with m_queue := q1 } }).2 = w1 :=
          congrArg Prod.snd heq
        rw [this]
      · rename_i w1 heq
        refine ⟨_, ?_, hnew⟩
        rw [← key]
        simp only [World.toCerr]
        have : (Run r { w with tp := { w.tp with m_queue := q1 } }).2 = w1 :=
          congrArg Prod.snd heq
        rw [this]

theorem workerTurn_conserve {R : Type} (NDEBUG : Bool) (Run : R → Action R)
    (hRun : PostsOnly Run) (i : Nat) (arrived : List (Option R)) (s : Process R) :
    s.world.tp.m_queue.m_queue ++ added (workerTurn NDEBUG Run i arrived s).2.toList
        = dequeued (workerTurn NDEBUG Run i arrived s).2.toList
          ++ (workerTurn NDEBUG Run i arrived s).1.world.tp.m_queue.m_queue
    ∧ ((∀ e ∈ arrived, e ≠ none) →
        ∀ e ∈ added (workerTurn NDEBUG Run i arrived s).2.toList, e ≠ none) := by
  unfold workerTurn
  rcases hi : s.world.tp.m_threads.get? i with _ | t
  · simp [added, dequeued]
  cases t
  swap
  · simp [added, dequeued]
  obtain ⟨new, hnew, hnn⟩ := turn_conserve NDEBUG Run hRun arrived s.world
  have hdrop : (CSharedQueue.taken (CThreadPool.ThreadRun.turn NDEBUG Run arrived s.world).got
          (CThreadPool.ThreadRun.turn NDEBUG Run arrived s.world).p
        ++ (CThreadPool.ThreadRun.turn NDEBUG Run arrived s.world).world.tp.m_queue.m_queue).drop
        s.world.tp.m_queue.m_queue.length = new := by
    rw [hnew]
    simp
  simp only []
  cases hctl : (CThreadPool.ThreadRun.turn NDEBUG Run arrived s.world).ctl <;>
    simp only [Option.toList, added, dequeued, List.flatMap_cons, List.flatMap_nil,
      List.append_nil, hdrop, World.toCerr] <;>
    exact ⟨hnew.symm, hnn⟩

theorem step_conserve {R : Type} (NDEBUG : Bool) (Run : R → Action R)
    (hRun : PostsOnly Run) (m : Move R) (s : Process R) :
    s.world.tp.m_queue.m_queue ++ added (step NDEBUG Run m s).2.toList
        = dequeued (step NDEBUG Run m s).2.toList
          ++ (step NDEBUG Run m s).1.world.tp.m_queue.m_queue
    ∧ (m.work = true → ∀ e ∈ added (step NDEBUG Run m s).2.toList, e ≠ none) := by
  unfold step
  by_cases ha : s.aborted = true
  · simp [ha, added, dequeued]
  simp only [ha]
  cases m with
  | turn i arrived =>
    obtain ⟨h1, h2⟩ := workerTurn_conserve NDEBUG Run hRun i arrived s
    refine ⟨h1, fun hw => h2 ?_⟩
    intro e he hn
    subst hn
    simp [Move.work] at hw
    have := hw none he
    simp at this
  | post runnable =>
    refine ⟨?_, ?_⟩
    · simp [added, dequeued, CSharedQueue.taken, CThreadPool.PostRunnable, World.toCerr,
        CSharedQueue.Put]
    · intro hw e he
      simp [Move.work] at hw
      simp [added] at he
      subst he
      intro hn
      simp [hn] at hw
  | cancel => simp [added, dequeued, CThreadPool.Cancel]
  | broadcast =>
    obtain ⟨h1, _⟩ := CThreadPool.broadcast_loop_spec s.world.tp.m_threadsCnt s.world
    refine ⟨?_, ?_⟩
    · simp [added, dequeued, CSharedQueue.taken, CThreadPool.BroadcastFastCancell, h1]
    · intro hw
      simp [Move.work] at hw

theorem exec_cons {R : Type} (NDEBUG : Bool) (Run : R → Action R) (m : Move R)
    (rest : List (Move R)) (s : Process R) :
    (exec NDEBUG Run (m :: rest) s).1 = (exec NDEBUG Run rest (step NDEBUG Run m s).1).1
    ∧ (exec NDEBUG Run (m :: rest) s).2
        = (step NDEBUG Run m s).2.toList ++ (exec NDEBUG Run rest (step NDEBUG Run m s).1).2 := by
  rcases hs : step NDEBUG Run m s with ⟨s1, o⟩
  cases o <;> simp [exec, hs]

theorem added_append {R : Type} (l1 l2 : List (Obs R)) :
    added (l1 ++ l2) = added l1 ++ added l2 := by
  simp [added]

theorem dequeued_append {R : Type} (l1 l2 : List (Obs R)) :
    dequeued (l1 ++ l2) = dequeued l1 ++ dequeued l2 := by
  simp [dequeued]

theorem exec_conserve {R : Type} (NDEBUG : Bool) (Run : R → Action R)
    (hRun : PostsOnly Run) (sched : List (Move R)) (s : Process R) :
    s.world.tp.m_queue.m_queue ++ added (exec NDEBUG Run sched s).2
        = dequeued (exec NDEBUG Run sched s).2
          ++ (exec NDEBUG Run sched s).1.world.tp.m_queue.m_queue
    ∧ ((∀ m ∈ sched, m.work = true) → ∀ e ∈ added (exec NDEBUG Run sched s).2, e ≠ none) := by
  induction sched generalizing s with
  | nil => simp [exec, added, dequeued]
  | cons m rest ih =>
    obtain ⟨e1, e2⟩ := exec_cons NDEBUG Run m rest s
    obtain ⟨h1, h2⟩ := step_conserve NDEBUG Run hRun m s
    obtain ⟨i1, i2⟩ := ih (step NDEBUG Run m s).1
    rw [e1, e2, added_append, dequeued_append]
    refine ⟨?_, ?_⟩
    · rw [← List.append_assoc, h1, List.append_assoc, i1, List.append_assoc]
    · intro hw e he
      rcases List.mem_append.mp he with h | h
      · exact h2 (hw m (List.mem_cons_self _ _)) e h
      · exact i2 (fun m2 hm2 => hw m2 (List.mem_cons_of_mem _ hm2)) e h

theorem map_some_filterMap_id {R : Type} (l : List (Option R)) (h : ∀ e ∈ l, e ≠ none) :
    (l.filterMap id).map some = l := by
  induction l with
  | nil => rfl
  | cons a l ih =>
    cases a with
    | none => exact absurd rfl (h none (List.mem_cons_self _ _))
    | some x =>
      simp [List.filterMap_cons]
      exact ih (fun e he => h e (List.mem_cons_of_mem _ he))

theorem posted_state {R : Type} (n : Nat) (xs : List R) :
    (posted n xs).tp.m_queue.m_queue = xs.map some
    ∧ (posted n xs).tp.m_cancel = false
    ∧ (posted n xs).tp.m_threads = List.replicate n ThreadState.looping := by
  have gen : ∀ (ys : List R) (w : World R),
      (ys.foldl (fun w r => CThreadPool.PostRunnable (some r) w) w).tp.m_queue.m_queue
          = w.tp.m_queue.m_queue ++ ys.map some
      ∧ (ys.foldl (fun w r => CThreadPool.PostRunnable (some r) w) w).tp.m_cancel
          = w.tp.m_cancel
      ∧ (ys.foldl (fun w r => CThreadPool.PostRunnable (some r) w) w).tp.m_threads
          = w.tp.m_threads := by
    intro ys
    induction ys with
    | nil => intro w; simp
    | cons y ys ih =>
      intro w
      obtain ⟨h1, h2, h3⟩ := ih (CThreadPool.PostRunnable (some y) w)
      simp only [List.foldl_cons]
      rw [h1, h2, h3]
      simp [CThreadPool.PostRunnable, World.toCerr, CSharedQueue.Put]
  obtain ⟨g1, g2, g3, _⟩ := started_state (R := R) n
  obtain ⟨h1, h2, h3⟩ := gen xs (started n)
  unfold posted
  rw [h1, h2, h3, g2, g3, g1]
  simp

theorem step_turn_front {R : Type} (NDEBUG : Bool) (Run : R → Action R) (i : Nat)
    (arrived : List (Option R)) (s : Process R) (r : R) (rest : List (Option R))
    (ha : s.aborted = false)
    (hi : s.world.tp.m_threads.get? i = some ThreadState.looping)
    (hq : s.world.tp.m_queue.m_queue = some r :: rest) :
    ∃ o, (step NDEBUG Run (Move.turn i arrived) s).2 = some o
      ∧ o.thread = some i ∧ o.got = true ∧ o.p = some r := by
  have hg : s.world.tp.m_queue.GetWaitblock arrived none
      = (true, some r, { m_queue := rest }) := by
    simp [CSharedQueue.GetWaitblock, hq]
  have ht : (CThreadPool.ThreadRun.turn NDEBUG Run arrived s.world).got = true
      ∧ (CThreadPool.ThreadRun.turn NDEBUG Run arrived s.world).p = some r := by
    unfold CThreadPool.ThreadRun.turn
    simp only [hg]
    split <;> exact ⟨rfl, rfl⟩
  unfold step workerTurn
  simp only [ha, hi]
  cases (CThreadPool.ThreadRun.turn NDEBUG Run arrived s.world).ctl <;>
    exact ⟨_, rfl, rfl, ht.1, ht.2⟩

/-- C1. Let the non-null runnables `xs` be posted to a started pool of `n` threads;
the cancel flag is false and the queue holds `xs` in posting order.  Let the runnables
interact with the pool only by posting.  Then in every execution made of worker turns
and further posts of non-null runnables, every pointer taken from the queue is non-null
and has its `Run` invoked in that same turn, and the runnables run so far followed by
those still queued are exactly the runnables posted so far, in posting order: none is
run twice, none is dropped.  So when the queue is drained the runnables that were run
are exactly the posted ones, each once, in posting order, whatever the number of
workers.  And the queue does get shorter: a turn of a thread that is in its loop, on a
queue with a runnable at the front, takes that runnable and runs it. -/
theorem C1_exactly_once {R : Type} (NDEBUG : Bool) (Run : R → Action R)
    (hRun : PostsOnly Run) (n : Nat) (xs : List R) (sched : List (Move R))
    (hs : ∀ m ∈ sched, m.work = true) :
    (posted n xs).tp.m_cancel = false
    ∧ (posted n xs).tp.m_queue.m_queue = xs.map some
    ∧ ∃ later pending : List R,
        added (exec NDEBUG Run sched { world := posted n xs, aborted := false }).2
          = later.map some
        ∧ (exec NDEBUG Run sched
            { world := posted n xs, aborted := false }).1.world.tp.m_queue.m_queue
          = pending.map some
        ∧ dequeued (exec NDEBUG Run sched { world := posted n xs, aborted := false }).2
          = (ran (exec NDEBUG Run sched { world := posted n xs, aborted := false }).2).map some
        ∧ ran (exec NDEBUG Run sched { world := posted n xs, aborted := false }).2 ++ pending
          = xs ++ later
        ∧ (pending = [] →
            ran (exec NDEBUG Run sched { world := posted n xs, aborted := false }).2
              = xs ++ later)
        ∧ ∀ (s : Process R) (i : Nat) (arrived rest : List (Option R)) (r : R),
            s.aborted = false →
            s.world.tp.m_threads.get? i = some ThreadState.looping →
            s.world.tp.m_queue.m_queue = some r :: rest →
            ran (step NDEBUG Run (Move.turn i arrived) s).2.toList = [r] := by
  obtain ⟨pq, pc, _⟩ := posted_state n xs
  obtain ⟨hcons, hnn⟩ := exec_conserve NDEBUG Run hRun sched
    { world := posted n xs, aborted := false }
  have hadd := hnn hs
  simp only [pq] at hcons
  have hall : ∀ e ∈ dequeued (exec NDEBUG Run sched
        { world := posted n xs, aborted := false }).2
      ++ (exec NDEBUG Run sched
        { world := posted n xs, aborted := false }).1.world.tp.m_queue.m_queue, e ≠ none := by
    rw [← hcons]
    intro e he
    rcases List.mem_append.mp he with h | h
    · obtain ⟨x, _, hx⟩ := List.mem_map.mp h
      rw [← hx]
      simp
    · exact hadd e h
  have hdq := map_some_filterMap_id _ (fun e he => hall e (List.mem_append_left _ he))
  have hpq := map_some_filterMap_id _ (fun e he => hall e (List.mem_append_right _ he))
  have hlt := map_some_filterMap_id _ hadd
  have hmain : ran (exec NDEBUG Run sched { world := posted n xs, aborted := false }).2
        ++ ((exec NDEBUG Run sched
          { world := posted n xs, aborted := false }).1.world.tp.m_queue.m_queue).filterMap id
      = xs ++ (added (exec NDEBUG Run sched
          { world := posted n xs, aborted := false }).2).filterMap id := by
    apply List.map_injective_iff.mpr (Option.some_injective R)
    rw [List.map_append, List.map_append, hpq, hlt]
    unfold ran
    rw [hdq]
    exact hcons.symm
  refine ⟨pc, pq, _, _, hlt.symm, hpq.symm, ?_, hmain, ?_, ?_⟩
  · unfold ran
    exact hdq.symm
  · intro hp
    rw [hp, List.append_nil] at hmain
    exact hmain
  · intro s i arrived rest r ha hi hq
    obtain ⟨o, ho, _, hgot, hp⟩ := step_turn_front NDEBUG Run i arrived s r rest ha hi hq
    simp [ho, ran, dequeued, CSharedQueue.taken, hgot, hp]

theorem HandlerClass.HandleEvent_frame {R : Type} (h : HandlerClass) (e : IEvent)
    (w : World R) :
    (h.HandleEvent e w).1 = Outcome.returned ∧ (h.HandleEvent e w).2.tp = w.tp
    ∧ (h.HandleEvent e w).2.cerr = w.cerr := by
  cases h <;> cases e <;> exact ⟨rfl, rfl, rfl⟩

theorem Runnable.Run_postsOnly : PostsOnly Runnable.Run := by
  intro r w
  cases r with
  | CTaskDummy h =>
    refine ⟨[Runnable.CTaskHandleEvent h IEvent.CEvent1], ?_⟩
    simp [Runnable.Run, CTask.Run, CTaskDummy.RunTask,
      CEventHandlerTaskWrapper.HandleDetached, CThreadPool.PostRunnable, World.toCerr,
      World.toCout, CSharedQueue.Put]
  | CTaskHandleEvent h e =>
    refine ⟨[], ?_⟩
    obtain ⟨h1, h2, _⟩ := HandlerClass.HandleEvent_frame h e (w.toCerr ("TASK RUN" ++ endl))
    rcases hr : h.HandleEvent e (w.toCerr ("TASK RUN" ++ endl)) with ⟨o, w1⟩
    rw [hr] at h1 h2
    simp only [] at h1 h2
    subst h1
    have e1 : Runnable.Run (Runnable.CTaskHandleEvent h e) w
        = (Outcome.returned, w1.toCerr ("TASK STOP" ++ endl)) := by
      simp only [Runnable.Run, CTask.Run, CTaskHandleEvent.RunTask, hr]
    rw [e1]
    simp [World.toCerr, h2]

/-- Witness for C1 on the program's own runnables: `dummyTask` posted to a pool of two
threads, then one turn of each thread.  The first turn runs `dummyTask`, which posts a
`CTaskHandleEvent`; the second turn runs that one; the queue is then drained. -/
theorem C1_exactly_once_witness :
    (∃ later pending : List Runnable,
      ran (exec false Runnable.Run [Move.turn 0 [], Move.turn 1 []]
          { world := posted 2 [Runnable.CTaskDummy HandlerClass.CEventHandlerReadTask],
            aborted := false }).2 ++ pending
        = [Runnable.CTaskDummy HandlerClass.CEventHandlerReadTask] ++ later)
    ∧ ran (exec false Runnable.Run [Move.turn 0 [], Move.turn 1 []]
          { world := posted 2 [Runnable.CTaskDummy HandlerClass.CEventHandlerReadTask],
            aborted := false }).2
        = [Runnable.CTaskDummy HandlerClass.CEventHandlerReadTask,
           Runnable.CTaskHandleEvent HandlerClass.CEventHandlerReadTask IEvent.CEvent1]
    ∧ (exec false Runnable.Run [Move.turn 0 [], Move.turn 1 []]
          { world := posted 2 [Runnable.CTaskDummy HandlerClass.CEventHandlerReadTask],
            aborted := false }).1.world.tp.m_queue.m_queue = [] := by
  obtain ⟨_, _, later, pending, _, _, _, h, _, _⟩ :=
    C1_exactly_once false Runnable.Run Runnable.Run_postsOnly 2
      [Runnable.CTaskDummy HandlerClass.CEventHandlerReadTask]
      [Move.turn 0 [], Move.turn 1 []] (by simp [Move.work])
  exact ⟨⟨later, pending, h⟩, rfl, rfl⟩

/-! ## The shutdown of `main` itself -/

theorem turn_threads {R : Type} (NDEBUG : Bool) (Run : R → Action R)
    (hRun : ThreadsUntouched Run) (arrived : List (Option R)) (w : World R) :
    (CThreadPool.ThreadRun.turn NDEBUG Run arrived w).world.tp.m_threads = w.tp.m_threads := by
  unfold CThreadPool.ThreadRun.turn
  rcases hg : w.tp.m_queue.GetWaitblock arrived none with ⟨b, p, q1⟩
  cases b
  · rfl
  · cases p with
    | none =>
      simp only []
      split <;> rfl
    | some r =>
      simp only []
      have h := hRun r { w with tp := { w.tp with m_queue := q1 } }
      split
      · rename_i w1 heq
        have : (Run r { w with tp := { w.tp with m_queue := q1 } }).2 = w1 :=
          congrArg Prod.snd heq
        rw [this] at h
        exact h
      · rename_i w1 heq
        have : (Run r { w with tp := { w.tp with m_queue := q1 } }).2 = w1 :=
          congrArg Prod.snd heq
        rw [this] at h
        exact h

theorem turn_leave_empty {R : Type} (NDEBUG : Bool) (Run : R → Action R)
    (arrived : List (Option R)) (w : World R)
    (h : (CThreadPool.ThreadRun.turn NDEBUG Run arrived w).ctl = CThreadPool.Ctl.leave) :
    (CThreadPool.ThreadRun.turn NDEBUG Run arrived w).world.tp.m_queue.m_queue = []
    ∧ (w.tp.m_queue.m_queue ≠ [] ∨ arrived ≠ []) := by
  unfold CThreadPool.ThreadRun.turn at h ⊢
  rcases hg : w.tp.m_queue.GetWaitblock arrived none with ⟨b, p, q1⟩
  rw [hg] at h
  cases b
  · simp at h
  · have hne : w.tp.m_queue.m_queue ≠ [] ∨ arrived ≠ [] := by
      by_contra hc
      simp only [not_or, not_not] at hc
      obtain ⟨h1, h2⟩ := hc
      simp [CSharedQueue.GetWaitblock, CSharedQueue.timedWait, h1, h2] at hg
    cases p with
    | none =>
      simp only [] at h ⊢
      split at h
      · rename_i hc
        rw [if_pos hc]
        simp [CSharedQueue.IsEmpty] at hc
        simp [World.toCerr, hc.2, hne]
      · simp at h
    | some r =>
      simp only [] at h
      split at h <;> cases NDEBUG <;> simp at h

theorem workerTurn_atMostOneLeft {R : Type} (NDEBUG : Bool) (Run : R → Action R)
    (hRun : ThreadsUntouched Run) (len i : Nat) (s : Process R) (h : AtMostOneLeft len s) :
    AtMostOneLeft len (workerTurn NDEBUG Run i [] s).1 := by
  obtain ⟨hl, hd⟩ := h
  unfold workerTurn
  rcases hi : s.world.tp.m_threads.get? i with _ | t
  · exact ⟨hl, hd⟩
  cases t
  swap
  · exact ⟨hl, hd⟩
  have hth := turn_threads NDEBUG Run hRun [] s.world
  simp only []
  cases hctl : (CThreadPool.ThreadRun.turn NDEBUG Run [] s.world).ctl
  · -- the loop goes round again
    simp only []
    refine ⟨by rw [hth]; exact hl, ?_⟩
    rcases hd with h0 | ⟨h1, hq⟩
    · left
      simp only [downCount] at h0 ⊢
      rw [hth]
      exact h0
    · right
      have ht : CThreadPool.ThreadRun.turn NDEBUG Run [] s.world
          = { ctl := CThreadPool.Ctl.again, got := false, p := none,
              world := { s.world with tp := { s.world.tp with m_queue := { m_queue := [] } } } } := by
        unfold CThreadPool.ThreadRun.turn
        simp [CSharedQueue.GetWaitblock, CSharedQueue.timedWait, hq]
      rw [ht]
      exact ⟨h1, rfl⟩
  · -- the break
    obtain ⟨he, hne⟩ := turn_leave_empty NDEBUG Run [] s.world hctl
    have hd0 : downCount s.world = 0 := by
      rcases hd with h0 | ⟨_, hq⟩
      · exact h0
      · simp [hq] at hne
    simp only []
    refine ⟨?_, Or.inr ⟨?_, ?_⟩⟩
    · simp [World.toCerr, hth, hl]
    · simp only [downCount, World.toCerr]
      rw [hth, count_set_down _ _ hi]
      simp only [downCount] at hd0
      omega
    · simpa [World.toCerr] using he
  · -- the abort
    simp only []
    have hq : s.world.tp.m_queue.m_queue ≠ [] := by
      intro hq
      have ht : CThreadPool.ThreadRun.turn NDEBUG Run [] s.world
          = { ctl := CThreadPool.Ctl.again, got := false, p := none,
              world := { s.world with tp := { s.world.tp with m_queue := { m_queue := [] } } } } := by
        unfold CThreadPool.ThreadRun.turn
        simp [CSharedQueue.GetWaitblock, CSharedQueue.timedWait, hq]
      rw [ht] at hctl
      simp at hctl
    refine ⟨by rw [hth]; exact hl, Or.inl ?_⟩
    rcases hd with h0 | ⟨_, hq2⟩
    · simp only [downCount] at h0 ⊢
      rw [hth]
      exact h0
    · exact absurd hq2 hq

theorem exec_quiet_atMostOneLeft {R : Type} (NDEBUG : Bool) (Run : R → Action R)
    (hRun : ThreadsUntouched Run) (len : Nat) (is : List Nat) (s : Process R)
    (h : AtMostOneLeft len s) :
    AtMostOneLeft len (exec NDEBUG Run (quiet is) s).1 := by
  induction is generalizing s with
  | nil => exact h
  | cons i is ih =>
    obtain ⟨e1, _⟩ := exec_cons NDEBUG Run (Move.turn i []) (quiet is) s
    have hq : (quiet (i :: is) : List (Move R)) = Move.turn i [] :: quiet is := rfl
    rw [hq, e1]
    apply ih
    unfold step
    by_cases ha : s.aborted = true
    · simpa [ha] using h
    · simp only [ha]
      exact workerTurn_atMostOneLeft NDEBUG Run hRun len i s h

theorem Runnable.Run_threadsUntouched : ThreadsUntouched Runnable.Run := by
  intro r w
  cases r with
  | CTaskDummy h =>
    simp [Runnable.Run, CTask.Run, CTaskDummy.RunTask,
      CEventHandlerTaskWrapper.HandleDetached, CThreadPool.PostRunnable, World.toCerr,
      World.toCout]
  | CTaskHandleEvent h e =>
    obtain ⟨h1, h2, _⟩ := HandlerClass.HandleEvent_frame h e (w.toCerr ("TASK RUN" ++ endl))
    rcases hr : h.HandleEvent e (w.toCerr ("TASK RUN" ++ endl)) with ⟨o, w1⟩
    rw [hr] at h1 h2
    simp only [] at h1 h2
    subst h1
    have e1 : Runnable.Run (Runnable.CTaskHandleEvent h e) w
        = (Outcome.returned, w1.toCerr ("TASK STOP" ++ endl)) := by
      simp only [Runnable.Run, CTask.Run, CTaskHandleEvent.RunTask, hr]
    rw [e1]
    simp [World.toCerr, h2]

/-- The shutdown of `main` itself (pool of 5, `dummyTask` posted, `Cancel`,
`BroadcastFastCancell`, `Join`): from the state `main` has built, whatever turns the
workers take, at most one of them leaves its loop, so `Join` does not return. -/
theorem main_join_never_returns (NDEBUG : Bool) (is : List Nat) :
    CThreadPool.Join.returns
      (exec NDEBUG Runnable.Run (quiet is)
        { world := main.beforeJoin, aborted := false }).1.world = false := by
  have h0 : AtMostOneLeft 5 ({ world := main.beforeJoin, aborted := false } : Process Runnable) :=
    ⟨rfl, Or.inl rfl⟩
  obtain ⟨hl, hd⟩ := exec_quiet_atMostOneLeft NDEBUG Runnable.Run
    Runnable.Run_threadsUntouched 5 is _ h0
  by_contra hj
  have hj2 : CThreadPool.Join.returns (exec NDEBUG Runnable.Run (quiet is)
      { world := main.beforeJoin, aborted := false }).1.world = true := by
    simpa using hj
  have := count_eq_length_of_all_down _ hj2
  simp only [downCount] at hd
  rcases hd with h | ⟨h, _⟩ <;> omega

/-! ## C13: the null handler -/

/-- C13. Delivering a `CEventReadCompleted`, `CEventSocketError` or `CEvent1` to a
`CEventHandlerNull` through `HandleEvent(const PEvent&)` returns and leaves the whole
state as it was: nothing is written, nothing else changes.  Delivering the same event to
the base `IEventHandler` writes "Unexpected Event!", the event's `GetExplanation()` and
a newline on `cout`, and changes nothing else. -/
theorem C13_null_handler_silent {R : Type} (w : World R) :
    HandlerClass.HandleEvent HandlerClass.CEventHandlerNull IEvent.CEventReadCompleted w
        = (Outcome.returned, w)
    ∧ HandlerClass.HandleEvent HandlerClass.CEventHandlerNull IEvent.CEventSocketError w
        = (Outcome.returned, w)
    ∧ HandlerClass.HandleEvent HandlerClass.CEventHandlerNull IEvent.CEvent1 w
        = (Outcome.returned, w)
    ∧ HandlerClass.HandleEvent HandlerClass.IEventHandler IEvent.CEventReadCompleted w
        = (Outcome.returned,
            { w with cout := w.cout ++ ("Unexpected Event!"
                ++ IEvent.CEventReadCompleted.GetExplanation ++ "\n") })
    ∧ HandlerClass.HandleEvent HandlerClass.IEventHandler IEvent.CEventSocketError w
        = (Outcome.returned,
            { w with cout := w.cout ++ ("Unexpected Event!"
                ++ IEvent.CEventSocketError.GetExplanation ++ "\n") })
    ∧ HandlerClass.HandleEvent HandlerClass.IEventHandler IEvent.CEvent1 w
        = (Outcome.returned,
            { w with cout := w.cout ++ ("Unexpected Event!"
                ++ IEvent.CEvent1.GetExplanation ++ "\n") })
    ∧ "Unexpected Event!" ++ IEvent.CEventReadCompleted.GetExplanation ++ "\n"
        = "Unexpected Event!Read success!\n"
    ∧ "Unexpected Event!" ++ IEvent.CEventSocketError.GetExplanation ++ "\n"
        = "Unexpected Event!socket error\n"
    ∧ "Unexpected Event!" ++ IEvent.CEvent1.GetExplanation ++ "\n"
        = "Unexpected Event!event1\n" := by
  refine ⟨rfl, rfl, rfl, ?_, ?_, ?_, by decide, by decide, by decide⟩ <;>
    simp [HandlerClass.HandleEvent, IEvent.PostToHandler,
      HandlerClass.HandleEvent_CEventReadCompleted, HandlerClass.HandleEvent_CEventSocketError,
      HandlerClass.HandleEvent_CEvent1, IEventHandler.HandleEvent_CEventReadCompleted,
      IEventHandler.HandleEvent_CEventSocketError, IEventHandler.HandleEvent_CEvent1,
      HandlerClass.UnexpectedEvent, IEventHandler.UnexpectedEvent, World.toCout, endl,
      IEvent.GetExplanation, String.append_assoc]

/-! ## C15: `Cancel` -/

/-- C15. For every pool state, `Cancel` sets the cancel flag and leaves the queue, the
thread count, the threads and both streams as they were; a second `Cancel` changes
nothing more.  A pool newly constructed with thread count `n` has the flag false, an
empty queue, no threads, and records `n`. -/
theorem C15_cancel_idempotent {R : Type} (w : World R) (n : Nat) :
    (CThreadPool.Cancel w).tp.m_cancel = true
    ∧ (CThreadPool.Cancel w).tp.m_queue = w.tp.m_queue
    ∧ (CThreadPool.Cancel w).tp.m_threadsCnt = w.tp.m_threadsCnt
    ∧ (CThreadPool.Cancel w).tp.m_threads = w.tp.m_threads
    ∧ (CThreadPool.Cancel w).cout = w.cout
    ∧ (CThreadPool.Cancel w).cerr = w.cerr
    ∧ CThreadPool.Cancel (CThreadPool.Cancel w) = CThreadPool.Cancel w
    ∧ (CThreadPool.new n : CThreadPool R).m_cancel = false
    ∧ (CThreadPool.new n : CThreadPool R).m_queue.m_queue = []
    ∧ (CThreadPool.new n : CThreadPool R).m_threads = []
    ∧ (CThreadPool.new n : CThreadPool R).m_threadsCnt = n :=
  ⟨rfl, rfl, rfl, rfl, rfl, rfl, rfl, rfl, rfl, rfl, rfl⟩

/-! ## C12: the default for an unhandled exception -/

theorem HandlerClass.toSubclass_HandleEvent {R : Type} (c : HandlerClass) (e : IEvent) :
    (c.toSubclass : Subclass R).HandleEvent e = c.HandleEvent e := by
  cases c <;> cases e <;> rfl

/-- C12, as stated, fails in its last part: `HandleEvent(const CEventUnhandledException &)`
is declared `virtual`, and a class derived from `IEventHandler` that overrides it with an
empty body gets no diagnostic at all when `CEventUnhandledException("m")` is delivered
through `HandleEvent(const PEvent&)`. -/
theorem C12_counterexample :
    (Subclass.HandleEvent
        ({ HandleEvent_CEventUnhandledException := some (fun _ v => (Outcome.returned, v)),
           HandleEvent_CEventReadCompleted := none, HandleEvent_CEventSocketError := none,
           HandleEvent_CEvent1 := none, UnexpectedEvent := none } : Subclass Unit)
        (IEvent.CEventUnhandledException "m") (started 1)).2.cout = ""
    ∧ ¬ (Subclass.HandleEvent
        ({ HandleEvent_CEventUnhandledException := some (fun _ v => (Outcome.returned, v)),
           HandleEvent_CEventReadCompleted := none, HandleEvent_CEventSocketError := none,
           HandleEvent_CEvent1 := none, UnexpectedEvent := none } : Subclass Unit)
        (IEvent.CEventUnhandledException "m") (started 1)).2.cout
        = (started 1 : World Unit).cout ++ "UNHANDLED exception : m\n" := by
  refine ⟨rfl, ?_⟩
  decide

/-- C12, amended. For every handler class defined in the program and every message `m`,
delivering `CEventUnhandledException(m)` through `HandleEvent(const PEvent&)` returns
after writing exactly "UNHANDLED exception : m" and a newline on `cout`; none of these
classes overrides `HandleEvent(const CEventUnhandledException &)`.  The same holds for
any derived class that does not override that method, whatever it does in its
unexpected-event hook, which is not invoked.  The method is virtual: a derived class
that overrides it replaces the diagnostic by its own body. -/
theorem C12_unhandled_exception_default {R : Type} (c : HandlerClass) (m : String)
    (w : World R) (o : Subclass R) (ho : o.HandleEvent_CEventUnhandledException = none) :
    c.HandleEvent (IEvent.CEventUnhandledException m) w
        = (Outcome.returned, { w with cout := w.cout ++ ("UNHANDLED exception : " ++ m ++ "\n") })
    ∧ (c.toSubclass : Subclass R).HandleEvent_CEventUnhandledException = none
    ∧ (∀ e, (c.toSubclass : Subclass R).HandleEvent e = c.HandleEvent e)
    ∧ o.HandleEvent (IEvent.CEventUnhandledException m) w
        = (Outcome.returned, { w with cout := w.cout ++ ("UNHANDLED exception : " ++ m ++ "\n") })
    ∧ (∀ body : String → Action R,
        Subclass.HandleEvent { o with HandleEvent_CEventUnhandledException := some body }
            (IEvent.CEventUnhandledException m) w
          = body m w) := by
  have hd : (IEventHandler.DefaultHandlerUnhandledException m : Action R) w
      = (Outcome.returned,
          { w with cout := w.cout ++ ("UNHANDLED exception : " ++ m ++ "\n") }) := by
    simp [IEventHandler.DefaultHandlerUnhandledException, World.toCout, endl,
      String.append_assoc]
  refine ⟨?_, ?_, HandlerClass.toSubclass_HandleEvent c, ?_, ?_⟩
  · exact hd
  · cases c <;> rfl
  · simp only [Subclass.HandleEvent, Subclass.callHandleEvent_CEventUnhandledException, ho]
    exact hd
  · intro body
    rfl

/-- Witness for C12: a derived class that overrides only the unexpected-event hook, with
a body that throws, still gets the diagnostic. -/
theorem C12_unhandled_exception_default_witness :
    Subclass.HandleEvent
        ({ HandleEvent_CEventUnhandledException := none,
           HandleEvent_CEventReadCompleted := none, HandleEvent_CEventSocketError := none,
           HandleEvent_CEvent1 := none,
           UnexpectedEvent := some (fun _ v => (Outcome.threw, v)) } : Subclass Unit)
        (IEvent.CEventUnhandledException "m") (started 1)
      = (Outcome.returned,
          { (started 1 : World Unit) with
            cout := (started 1 : World Unit).cout ++ ("UNHANDLED exception : " ++ "m" ++ "\n") }) :=
  (C12_unhandled_exception_default HandlerClass.IEventHandler "m" (started 1)
    { HandleEvent_CEventUnhandledException := none,
      HandleEvent_CEventReadCompleted := none, HandleEvent_CEventSocketError := none,
      HandleEvent_CEvent1 := none,
      UnexpectedEvent := some (fun _ v => (Outcome.threw, v)) } rfl).2.2.2.1

/-! ## C11: detached delivery -/

theorem HandlerClass.HandleEvent_cout_only {R : Type} (h : HandlerClass) (e : IEvent)
    (w : World R) (x : String) :
    h.HandleEvent e w = (Outcome.returned, { w with cout := (h.HandleEvent e w).2.cout })
    ∧ h.HandleEvent e (w.toCerr x) = (Outcome.returned, ((h.HandleEvent e w).2).toCerr x) := by
  cases h <;> cases e <;> exact ⟨rfl, rfl⟩

theorem Runnable.Run_CTaskHandleEvent (h : HandlerClass) (e : IEvent) :
    Runnable.Run (Runnable.CTaskHandleEvent h e) = CTaskHandleEvent.RunOf h.toSubclass e := by
  have : (CTaskHandleEvent.RunTask h e : Action Runnable)
      = CTaskHandleEvent.RunTaskOf h.toSubclass e := by
    unfold CTaskHandleEvent.RunTask CTaskHandleEvent.RunTaskOf
    exact (HandlerClass.toSubclass_HandleEvent h e).symm
  simp only [Runnable.Run, CTaskHandleEvent.RunOf, this]

theorem CTaskHandleEvent.RunOf_returned {R : Type} (o : Subclass R) (e : IEvent)
    (w w1 : World R)
    (hret : o.HandleEvent e (w.toCerr ("TASK RUN" ++ endl)) = (Outcome.returned, w1)) :
    CTaskHandleEvent.RunOf o e w = (Outcome.returned, w1.toCerr ("TASK STOP" ++ endl)) := by
  unfold CTaskHandleEvent.RunOf CTask.Run CTaskHandleEvent.RunTaskOf
  simp only [hret]

/-- C11. For every handler class `h` of the program and every event `e`,
`HandleDetached(h, e, tp)` returns after appending exactly one runnable, the
`CTaskHandleEvent` built on `h` and `e`, at the back of the pool's queue and writing the
trace line "PR" on `cerr`: the flag, the threads, the thread count and `cout` are as
before, so `h` has not been invoked.  `HandleYield(h, e)` is the handler's
`HandleEvent` on `e`, done when it returns.  Running the posted runnable later returns
with exactly the `cout` and the pool that `HandleYield(h, e)` gives, between the trace
lines "TASK RUN" and "TASK STOP" on `cerr`.  For a handler of any derived class, when
its handling of `e` returns, the run of the `CTaskHandleEvent` is that handling followed
by the trace line "TASK STOP". -/
theorem C11_detached_equals_deferred_yield (h : HandlerClass) (e : IEvent)
    (w : World Runnable) (o : Subclass Runnable) (w1 : World Runnable)
    (hret : o.HandleEvent e (w.toCerr ("TASK RUN" ++ endl)) = (Outcome.returned, w1)) :
    CEventHandlerTaskWrapper.HandleDetached h e w
        = (Outcome.returned,
            { w with
              tp := { w.tp with
                m_queue := { m_queue := w.tp.m_queue.m_queue
                  ++ [some (Runnable.CTaskHandleEvent h e)] } },
              cerr := w.cerr ++ "PR\n" })
    ∧ (CEventHandlerTaskWrapper.HandleYield h e : Action Runnable) = h.HandleEvent e
    ∧ Runnable.Run (Runnable.CTaskHandleEvent h e) w
        = (Outcome.returned,
            { w with
              cout := (CEventHandlerTaskWrapper.HandleYield h e w).2.cout,
              cerr := w.cerr ++ "TASK RUN\nTASK STOP\n" })
    ∧ (CEventHandlerTaskWrapper.HandleYield h e w).2.tp = w.tp
    ∧ (CEventHandlerTaskWrapper.HandleYield h e w).1 = Outcome.returned
    ∧ Runnable.Run (Runnable.CTaskHandleEvent h e) = CTaskHandleEvent.RunOf h.toSubclass e
    ∧ (CEventHandlerTaskWrapper.HandleYieldOf o e : Action Runnable) = o.HandleEvent e
    ∧ CTaskHandleEvent.RunOf o e w
        = (Outcome.returned,
            (CEventHandlerTaskWrapper.HandleYieldOf o e
              (w.toCerr ("TASK RUN" ++ endl))).2.toCerr ("TASK STOP" ++ endl)) := by
  obtain ⟨c1, c2⟩ := HandlerClass.HandleEvent_cout_only h e w ("TASK RUN" ++ endl)
  refine ⟨?_, rfl, ?_, ?_, ?_, Runnable.Run_CTaskHandleEvent h e, rfl, ?_⟩
  · simp [CEventHandlerTaskWrapper.HandleDetached, CThreadPool.PostRunnable, World.toCerr,
      CSharedQueue.Put, endl]
  · have hr : CTaskHandleEvent.RunTask h e (w.toCerr ("TASK RUN" ++ endl))
        = (Outcome.returned, ((h.HandleEvent e w).2).toCerr ("TASK RUN" ++ endl)) := c2
    simp only [Runnable.Run, CTask.Run, hr, CEventHandlerTaskWrapper.HandleYield]
    rw [c1]
    simp [World.toCerr, endl, String.append_assoc]
  · simp only [CEventHandlerTaskWrapper.HandleYield]
    rw [c1]
  · simp only [CEventHandlerTaskWrapper.HandleYield]
    rw [c1]
  · rw [CTaskHandleEvent.RunOf_returned o e w w1 hret]
    simp only [CEventHandlerTaskWrapper.HandleYieldOf, hret]

/-- Witness for C11: `CEvent1` sent detached to a `CEventHandlerReadTask` on the state
`main` has built; the derived class is `CEventHandlerReadTask` itself. -/
theorem C11_detached_equals_deferred_yield_witness :
    Runnable.Run (Runnable.CTaskHandleEvent HandlerClass.CEventHandlerReadTask IEvent.CEvent1)
        main.beforeJoin
      = (Outcome.returned,
          { main.beforeJoin with
            cout := (CEventHandlerTaskWrapper.HandleYield HandlerClass.CEventHandlerReadTask
              IEvent.CEvent1 main.beforeJoin).2.cout,
            cerr := main.beforeJoin.cerr ++ "TASK RUN\nTASK STOP\n" }) :=
  (C11_detached_equals_deferred_yield HandlerClass.CEventHandlerReadTask IEvent.CEvent1
    main.beforeJoin HandlerClass.CEventHandlerReadTask.toSubclass _ rfl).2.2.1

/-! ## C16: a detached notification that fails -/

/-- C16. Let the handler, of any class derived from `IEventHandler`, throw while it
handles `e` in the run of the `CTaskHandleEvent` built on it, leaving the state `w1`.
Then the run returns, and what it does after the throw is exactly one `HandleYield` of
`CEventUnhandledException("unknown exception")` to a `CEventHandlerNull`: the line
"UNHANDLED exception : unknown exception" on `cout` and the trace line "TASK STOP" on
`cerr`, so the null handler is not silent for this variant.  The handler itself is not
called again: the result depends on it only through `w1`.  The runnable that
`HandleDetached` posts runs in this way. -/
theorem C16_detached_failure_to_null_handler {R : Type} (o : Subclass R) (e : IEvent)
    (w w1 : World R)
    (hthrow : o.HandleEvent e (w.toCerr ("TASK RUN" ++ endl)) = (Outcome.threw, w1)) :
    CTaskHandleEvent.RunOf o e w
        = CEventHandlerTaskWrapper.HandleYield HandlerClass.CEventHandlerNull
            (IEvent.CEventUnhandledException "unknown exception")
            (w1.toCerr ("TASK STOP" ++ endl))
    ∧ CTaskHandleEvent.RunOf o e w
        = (Outcome.returned,
            { w1 with
              cout := w1.cout ++ "UNHANDLED exception : unknown exception\n",
              cerr := w1.cerr ++ "TASK STOP\n" })
    ∧ (∀ o2 : Subclass R,
        o2.HandleEvent e (w.toCerr ("TASK RUN" ++ endl)) = (Outcome.threw, w1) →
        CTaskHandleEvent.RunOf o2 e w = CTaskHandleEvent.RunOf o e w)
    ∧ (∀ (h : HandlerClass) (e2 : IEvent),
        Runnable.Run (Runnable.CTaskHandleEvent h e2) = CTaskHandleEvent.RunOf h.toSubclass e2)
    ∧ (∀ (h : HandlerClass) (e2 : IEvent) (v : World Runnable),
        (CEventHandlerTaskWrapper.HandleDetached h e2 v).2.tp.m_queue.m_queue
          = v.tp.m_queue.m_queue ++ [some (Runnable.CTaskHandleEvent h e2)]) := by
  have key : ∀ o2 : Subclass R,
      o2.HandleEvent e (w.toCerr ("TASK RUN" ++ endl)) = (Outcome.threw, w1) →
      CTaskHandleEvent.RunOf o2 e w
        = CEventHandlerTaskWrapper.HandleYield HandlerClass.CEventHandlerNull
            (IEvent.CEventUnhandledException "unknown exception")
            (w1.toCerr ("TASK STOP" ++ endl)) := by
    intro o2 h2
    unfold CTaskHandleEvent.RunOf CTask.Run CTaskHandleEvent.RunTaskOf
    simp only [h2]
  refine ⟨key o hthrow, ?_, ?_, Runnable.Run_CTaskHandleEvent, ?_⟩
  · rw [key o hthrow]
    simp [CEventHandlerTaskWrapper.HandleYield, HandlerClass.HandleEvent,
      IEvent.PostToHandler, HandlerClass.HandleEvent_CEventUnhandledException,
      IEventHandler.HandleEvent_CEventUnhandledException,
      IEventHandler.DefaultHandlerUnhandledException, World.toCout, World.toCerr, endl,
      String.append_assoc]
  · intro o2 h2
    rw [key o2 h2, key o hthrow]
  · intro h e2 v
    simp [CEventHandlerTaskWrapper.HandleDetached, CThreadPool.PostRunnable, World.toCerr,
      CSharedQueue.Put]

/-- Witness for C16: a derived class whose `HandleEvent(const CEvent1 &)` throws. -/
theorem C16_detached_failure_to_null_handler_witness :
    CTaskHandleEvent.RunOf
        ({ HandleEvent_CEventUnhandledException := none,
           HandleEvent_CEventReadCompleted := none, HandleEvent_CEventSocketError := none,
           HandleEvent_CEvent1 := some (fun v => (Outcome.threw, v)),
           UnexpectedEvent := none } : Subclass Unit)
        IEvent.CEvent1 (started 1)
      = (Outcome.returned,
          { (started 1 : World Unit).toCerr ("TASK RUN" ++ endl) with
            cout := ((started 1 : World Unit).toCerr ("TASK RUN" ++ endl)).cout
              ++ "UNHANDLED exception : unknown exception\n",
            cerr := ((started 1 : World Unit).toCerr ("TASK RUN" ++ endl)).cerr
              ++ "TASK STOP\n" }) :=
  (C16_detached_failure_to_null_handler
    ({ HandleEvent_CEventUnhandledException := none,
       HandleEvent_CEventReadCompleted := none, HandleEvent_CEventSocketError := none,
       HandleEvent_CEvent1 := some (fun v => (Outcome.threw, v)),
       UnexpectedEvent := none } : Subclass Unit)
    IEvent.CEvent1 (started 1) _ rfl).2.1

/-! ## C17: the worker never runs a null pointer -/

/-- C17. In every pool state, whatever calls built it: a `PostRunnable` of a null
runnable and one turn of the loop of `BroadcastFastCancell` leave the same pool, the
queue followed by one null entry (they differ only in the trace line on `cerr`).  A turn
of the worker loop whose pointer is null after `GetWaitblock` does not depend on `Run`
at all: `Run` is not invoked.  A null entry at the front of the queue is handled by the
sentinel branch: it is removed, and the `break` is taken exactly when the flag is set
and the queue is then empty.  And a turn that ends with a non-null `p` has taken that
`p` from the queue and its state is what the `Run` of `p` left (with the report of the
exception if it threw). -/
theorem C17_no_null_dereference {R : Type} (NDEBUG : Bool) (Run Run2 : R → Action R)
    (arrived rest : List (Option R)) (w : World R) :
    (CThreadPool.PostRunnable none w).tp = (CThreadPool.BroadcastFastCancell.loop 1 w).tp
    ∧ (CThreadPool.PostRunnable none w).cout = (CThreadPool.BroadcastFastCancell.loop 1 w).cout
    ∧ (CThreadPool.PostRunnable none w).tp.m_queue.m_queue = w.tp.m_queue.m_queue ++ [none]
    ∧ ((w.tp.m_queue.GetWaitblock arrived none).2.1 = none →
        CThreadPool.ThreadRun.turn NDEBUG Run arrived w
          = CThreadPool.ThreadRun.turn NDEBUG Run2 arrived w)
    ∧ CThreadPool.ThreadRun.turn NDEBUG Run arrived
          { w with tp := { w.tp with m_queue := { m_queue := none :: rest } } }
        = (if w.tp.m_cancel && rest.isEmpty then
            { ctl := CThreadPool.Ctl.leave, got := true, p := none,
              world := ({ w with tp := { w.tp with m_queue := { m_queue := rest } } }).toCerr
                ("TD" ++ endl) }
          else
            { ctl := CThreadPool.Ctl.again, got := true, p := none,
              world := { w with tp := { w.tp with m_queue := { m_queue := rest } } } })
    ∧ (∀ r, (CThreadPool.ThreadRun.turn NDEBUG Run arrived w).p = some r →
        ∃ q1, w.tp.m_queue.GetWaitblock arrived none = (true, some r, q1)
          ∧ ((CThreadPool.ThreadRun.turn NDEBUG Run arrived w).world
              = (Run r { w with tp := { w.tp with m_queue := q1 } }).2
            ∨ (CThreadPool.ThreadRun.turn NDEBUG Run arrived w).world
              = ((Run r { w with tp := { w.tp with m_queue := q1 } }).2).toCerr
                  "unexpected exception in thread pool!")) := by
  refine ⟨rfl, rfl, rfl, ?_, ?_, ?_⟩
  · intro hp
    unfold CThreadPool.ThreadRun.turn
    rcases hg : w.tp.m_queue.GetWaitblock arrived none with ⟨b, p, q1⟩
    rw [hg] at hp
    simp only [] at hp
    subst hp
    cases b <;> rfl
  · unfold CThreadPool.ThreadRun.turn
    simp [CSharedQueue.GetWaitblock, CSharedQueue.IsEmpty]
  · intro r hr
    unfold CThreadPool.ThreadRun.turn at hr ⊢
    rcases hg : w.tp.m_queue.GetWaitblock arrived none with ⟨b, p, q1⟩
    rw [hg] at hr
    cases b
    · obtain ⟨hp, _⟩ := CSharedQueue.GetWaitblock_false _ _ _ _ _ hg
      subst hp
      simp at hr
    · cases p with
      | none =>
        simp only [] at hr
        split at hr <;> simp at hr
      | some r2 =>
        simp only [] at hr ⊢
        have hrr : r2 = r := by
          split at hr <;> simpa using hr
        subst hrr
        refine ⟨q1, rfl, ?_⟩
        split
        · rename_i w2 heq
          left
          exact (congrArg Prod.snd heq).symm
        · rename_i w2 heq
          right
          have : (Run r2 { w with tp := { w.tp with m_queue := q1 } }).2 = w2 :=
            congrArg Prod.snd heq
          rw [this]

/-- Witness for C17: a caller posts a null runnable to a started pool of one thread;
the turn that takes it runs nothing, whatever `Run` is. -/
theorem C17_no_null_dereference_witness :
    CThreadPool.ThreadRun.turn false Runnable.Run []
        (CThreadPool.PostRunnable none (started 1))
      = CThreadPool.ThreadRun.turn false (fun _ v => (Outcome.threw, v)) []
        (CThreadPool.PostRunnable none (started 1)) :=
  (C17_no_null_dereference false Runnable.Run (fun _ v => (Outcome.threw, v)) [] []
    (CThreadPool.PostRunnable none (started 1))).2.2.2.1 rfl

/-! ## C14: the cancel flag alone stops no worker -/

theorem turn_leave_sentinel {R : Type} (NDEBUG : Bool) (Run : R → Action R)
    (arrived : List (Option R)) (w : World R)
    (h : (CThreadPool.ThreadRun.turn NDEBUG Run arrived w).ctl = CThreadPool.Ctl.leave) :
    (CThreadPool.ThreadRun.turn NDEBUG Run arrived w).got = true
    ∧ (CThreadPool.ThreadRun.turn NDEBUG Run arrived w).p = none := by
  unfold CThreadPool.ThreadRun.turn at h ⊢
  rcases hg : w.tp.m_queue.GetWaitblock arrived none with ⟨b, p, q1⟩
  rw [hg] at h
  cases b
  · simp at h
  · cases p with
    | none =>
      simp only [] at h ⊢
      split <;> exact ⟨rfl, rfl⟩
    | some r =>
      simp only [] at h
      split at h <;> cases NDEBUG <;> simp at h

theorem workerTurn_noSentinel {R : Type} (NDEBUG : Bool) (Run : R → Action R)
    (hRun : PostsOnly Run) (hT : ThreadsUntouched Run) (i : Nat) (arrived : List (Option R))
    (s : Process R) (harr : ∀ e ∈ arrived, e ≠ none)
    (hq : ∀ e ∈ s.world.tp.m_queue.m_queue, e ≠ none) :
    (workerTurn NDEBUG Run i arrived s).1.world.tp.m_threads = s.world.tp.m_threads
    ∧ ∀ e ∈ (workerTurn NDEBUG Run i arrived s).1.world.tp.m_queue.m_queue, e ≠ none := by
  unfold workerTurn
  rcases hi : s.world.tp.m_threads.get? i with _ | t
  · exact ⟨rfl, hq⟩
  cases t
  swap
  · exact ⟨rfl, hq⟩
  obtain ⟨new, hnew, hnn⟩ := turn_conserve NDEBUG Run hRun arrived s.world
  have hth := turn_threads NDEBUG Run hT arrived s.world
  have hall : ∀ e ∈ CSharedQueue.taken (CThreadPool.ThreadRun.turn NDEBUG Run arrived s.world).got
        (CThreadPool.ThreadRun.turn NDEBUG Run arrived s.world).p
      ++ (CThreadPool.ThreadRun.turn NDEBUG Run arrived s.world).world.tp.m_queue.m_queue,
      e ≠ none := by
    rw [hnew]
    intro e he
    rcases List.mem_append.mp he with h | h
    · exact hq e h
    · exact hnn harr e h
  have hqueue : ∀ e ∈ (CThreadPool.ThreadRun.turn NDEBUG Run arrived s.world).world.tp.m_queue.m_queue,
      e ≠ none := fun e he => hall e (List.mem_append_right _ he)
  simp only []
  cases hctl : (CThreadPool.ThreadRun.turn NDEBUG Run arrived s.world).ctl
  · exact ⟨hth, hqueue⟩
  · obtain ⟨hg, hp⟩ := turn_leave_sentinel NDEBUG Run arrived s.world hctl
    have : (none : Option R) ∈ CSharedQueue.taken
        (CThreadPool.ThreadRun.turn NDEBUG Run arrived s.world).got
        (CThreadPool.ThreadRun.turn NDEBUG Run arrived s.world).p
        ++ (CThreadPool.ThreadRun.turn NDEBUG Run arrived s.world).world.tp.m_queue.m_queue := by
      rw [hg, hp]
      simp [CSharedQueue.taken]
    exact absurd rfl (hall none this)
  · exact ⟨hth, hqueue⟩

theorem step_noSentinel {R : Type} (NDEBUG : Bool) (Run : R → Action R)
    (hRun : PostsOnly Run) (hT : ThreadsUntouched Run) (m : Move R) (s : Process R)
    (hm : m.noSentinel = true) (hq : ∀ e ∈ s.world.tp.m_queue.m_queue, e ≠ none) :
    (step NDEBUG Run m s).1.world.tp.m_threads = s.world.tp.m_threads
    ∧ ∀ e ∈ (step NDEBUG Run m s).1.world.tp.m_queue.m_queue, e ≠ none := by
  unfold step
  by_cases ha : s.aborted = true
  · rw [if_pos ha]
    exact ⟨rfl, hq⟩
  simp only [ha]
  cases m with
  | turn i arrived =>
    apply workerTurn_noSentinel NDEBUG Run hRun hT i arrived s _ hq
    intro e he hn
    subst hn
    simp [Move.noSentinel] at hm
    have := hm none he
    simp at this
  | post runnable =>
    refine ⟨rfl, ?_⟩
    intro e he
    simp [CThreadPool.PostRunnable, World.toCerr, CSharedQueue.Put] at he
    rcases he with h | h
    · exact hq e h
    · subst h
      intro hn
      simp [Move.noSentinel, hn] at hm
  | cancel => exact ⟨rfl, hq⟩
  | broadcast => simp [Move.noSentinel] at hm

/-- C14. Let the runnables only post non-null runnables and leave the threads alone.
From any state of the process whose queue holds no null pointer, whatever the value of
the cancel flag, in every execution made of worker turns, posts of non-null runnables
and any number of calls of `Cancel`, the threads are as they were at the start: no
worker has left its loop, and `Join` can return only if it could at the start.  The
queue never holds a null pointer. -/
theorem C14_cancel_alone_never_stops {R : Type} (NDEBUG : Bool) (Run : R → Action R)
    (hRun : PostsOnly Run) (hT : ThreadsUntouched Run) (sched : List (Move R))
    (hs : ∀ m ∈ sched, m.noSentinel = true) (s : Process R)
    (hq : ∀ e ∈ s.world.tp.m_queue.m_queue, e ≠ none) :
    (exec NDEBUG Run sched s).1.world.tp.m_threads = s.world.tp.m_threads
    ∧ downCount (exec NDEBUG Run sched s).1.world = downCount s.world
    ∧ CThreadPool.Join.returns (exec NDEBUG Run sched s).1.world
        = CThreadPool.Join.returns s.world
    ∧ ∀ e ∈ (exec NDEBUG Run sched s).1.world.tp.m_queue.m_queue, e ≠ none := by
  have main : (exec NDEBUG Run sched s).1.world.tp.m_threads = s.world.tp.m_threads
      ∧ ∀ e ∈ (exec NDEBUG Run sched s).1.world.tp.m_queue.m_queue, e ≠ none := by
    induction sched generalizing s with
    | nil => exact ⟨rfl, hq⟩
    | cons m rest ih =>
      obtain ⟨e1, _⟩ := exec_cons NDEBUG Run m rest s
      obtain ⟨h1, h2⟩ := step_noSentinel NDEBUG Run hRun hT m s
        (hs m (List.mem_cons_self _ _)) hq
      obtain ⟨i1, i2⟩ := ih (fun m2 hm2 => hs m2 (List.mem_cons_of_mem _ hm2))
        (step NDEBUG Run m s).1 h2
      rw [e1]
      exact ⟨i1.trans h1, i2⟩
  obtain ⟨m1, m2⟩ := main
  refine ⟨m1, ?_, ?_, m2⟩
  · simp only [downCount, m1]
  · simp only [CThreadPool.Join.returns, m1]

/-- Witness for C14 on the program's runnables: `dummyTask` posted to a started pool of
two threads, then `Cancel`, a turn of thread 0, `Cancel` again, a turn of thread 1 and a
turn of thread 0 on the drained queue: both threads are still in their loop. -/
theorem C14_cancel_alone_never_stops_witness :
    (exec false Runnable.Run
        [Move.cancel, Move.turn 0 [], Move.cancel, Move.turn 1 [], Move.turn 0 []]
        { world := posted 2 [Runnable.CTaskDummy HandlerClass.CEventHandlerReadTask],
          aborted := false }).1.world.tp.m_threads
      = [ThreadState.looping, ThreadState.looping] :=
  (C14_cancel_alone_never_stops false Runnable.Run Runnable.Run_postsOnly
    Runnable.Run_threadsUntouched
    [Move.cancel, Move.turn 0 [], Move.cancel, Move.turn 1 [], Move.turn 0 []]
    (by simp [Move.noSentinel])
    { world := posted 2 [Runnable.CTaskDummy HandlerClass.CEventHandlerReadTask],
      aborted := false }
    (by
      intro e he
      rw [(posted_state 2 [Runnable.CTaskDummy HandlerClass.CEventHandlerReadTask]).1] at he
      simp at he
      simp [he])).1

end ll1
